import Mathlib

/-!
Verification of the voice-command intent-resolution pipeline of the
voice-assistant repository (`src/handler/voiceQueryController.ts`,
`src/services/geminiService.ts`).

The TypeScript code is shallowly embedded: strings are Lean `String`s
(manipulated through their `List Char` data), the JavaScript regular
expressions used by the controller are modelled as explicit leftmost-scan
matchers over character lists, the Notion task store is modelled as an
explicit state record, and every external call (Gemini, ElevenLabs,
Notion) is an explicit oracle parameter.  Confidence values, which in the
source are decimal constants in steps of 0.1, are represented as natural
numbers in tenths (0.9 ↦ 9).
-/

namespace VoiceAssistant

/-! ## JavaScript string primitives (ASCII model)

`lowChar` models `String.prototype.toLowerCase` on ASCII characters,
which is the alphabet the controller's keyword tables use.  `isJsSpace`
models the `\s` character class restricted to ASCII whitespace, and
`isLineTerm` the characters the `.` regex atom does not match. -/

def lowChar (c : Char) : Char :=
  if 'A' ≤ c ∧ c ≤ 'Z' then Char.ofNat (c.toNat + 32) else c

def lowerL (s : List Char) : List Char := s.map lowChar

def isJsSpace (c : Char) : Bool :=
  c = ' ' || c = '\t' || c = '\n' || c = '\r' || c = '\x0b' || c = '\x0c'

def isLineTerm (c : Char) : Bool := c = '\n' || c = '\r'

def nonTerm (c : Char) : Bool := !isLineTerm c

/-- `String.prototype.trim()` on the character list. -/
def trimL (s : List Char) : List Char :=
  ((s.dropWhile isJsSpace).reverse.dropWhile isJsSpace).reverse

/-- Substring test (`String.prototype.includes`): `pat` occurs contiguously
in `s`.  The empty pattern always matches, as in JavaScript. -/
def isInfixL (pat : List Char) : List Char → Bool
  | [] => pat.isEmpty
  | c :: cs => pat.isPrefixOf (c :: cs) || isInfixL pat cs

/-- `s.includes(pat)`. -/
def includesL (s pat : List Char) : Bool := isInfixL pat s

/-- `String.prototype.split(' ')`: split on every single space character,
keeping empty fragments, as JavaScript does. -/
def splitSp : List Char → List (List Char)
  | [] => [[]]
  | c :: cs =>
    if c = ' ' then [] :: splitSp cs
    else
      match splitSp cs with
      | w :: ws => (c :: w) :: ws
      | [] => [[c]]

def lowerS (s : String) : String := ⟨lowerL s.data⟩

def trimS (s : String) : String := ⟨trimL s.data⟩

/-- Case-insensitive `includes` of a (lowercase) keyword, as the controller
performs it: the subject string has already been lowercased. -/
def inclS (s : String) (pat : String) : Bool := includesL s.data pat.data

/-! ## Regex model

The controller uses a small family of regex shapes, all with the `/i`
flag, applied with `String.prototype.match` (leftmost match wins):

* `kw\s+(.+)`                       (complete/finish/check off/delete/... )
* `kw\s+with\s+(.+)`                (`done with <x>`)
* `mark\s+(.+)\s+as\s+done`
* `kw\s+(.+?)\s+to\s+(.+)`          (update/change/modify/edit)
* `(?:add|create|new|make)\s+(.+)`
* `^(v1|v2|v3)\s+(.+)$`             (past-tense completion, anchored)

They are modelled compositionally.  `kwAt` matches a literal lowercase
keyword case-insensitively at the head of the text and returns the
remainder.  `spThenCont` models `\s+` followed by a continuation,
including the backtracking of a greedy `\s+` into the continuation.
`.` never matches a line terminator; `.+` greedy takes the maximal run,
`.+?` lazy takes the minimal run that lets the rest of the pattern
match. -/

/-- Match the literal lowercase keyword `kw` case-insensitively at the
start of `s`; return the remaining text. -/
def kwAt : (kw : List Char) → (s : List Char) → Option (List Char)
  | [], s => some s
  | _ :: _, [] => none
  | k :: ks, c :: cs => if lowChar c = k then kwAt ks cs else none

/-- `\s+` then a continuation `inner`, with the greedy `\s+` backtracking:
the longest whitespace run is tried first, then ever shorter ones.
`wsRev` is the reversed remaining whitespace budget, `after` the text
following it. -/
def btCont (inner : List Char → Option β) : List Char → List Char → Option β
  | [], _ => none
  | w :: wsRev, after =>
    match inner after with
    | some r => some r
    | none => btCont inner wsRev (w :: after)

def spThenCont (inner : List Char → Option β) (s : List Char) : Option β :=
  btCont inner (s.takeWhile isJsSpace).reverse (s.dropWhile isJsSpace)

/-- `(.+)` at the end of a pattern: the greedy run of non-terminator
characters, which must be nonempty. -/
def dotPlusInner (after : List Char) : Option (List Char) :=
  let g := after.takeWhile nonTerm
  if g.isEmpty then none else some g

/-- `\s+(.+)` (pattern ends after the capture). -/
def spDotPlus : List Char → Option (List Char) := spThenCont dotPlusInner

/-- `(.+)$` at the end of an anchored pattern: the run must reach the end
of the string. -/
def dotPlusEndInner (after : List Char) : Option (List Char) :=
  if after.isEmpty then none
  else if after.all nonTerm then some after else none

/-- `\s+(.+)$`. -/
def spDotPlusEnd : List Char → Option (List Char) := spThenCont dotPlusEndInner

/-- `\s+kw` for a keyword starting with a non-whitespace character: the
greedy `\s+` is forced to consume the whole whitespace run, so no
backtracking arises. -/
def spKwAt (kw : List Char) (s : List Char) : Option (List Char) :=
  if (s.takeWhile isJsSpace).isEmpty then none
  else kwAt kw (s.dropWhile isJsSpace)

/-- `(.+?)\s+to\s+(.+)` starting at `after`: the lazy `(.+?)` tries the
shortest nonempty prefix first. -/
def lazyToPair (after : List Char) : Option (List Char × List Char) :=
  let n := (after.takeWhile nonTerm).length
  (List.range n).findSome? fun i =>
    let g1 := after.take (i + 1)
    (spKwAt ['t', 'o'] (after.drop (i + 1))).bind fun rem =>
      (spDotPlus rem).map fun g2 => (g1, g2)

/-- `(.+)\s+as\s+done` starting at `after`: the greedy `(.+)` tries the
longest prefix of the current line first. -/
def greedyAsDone (after : List Char) : Option (List Char) :=
  let n := (after.takeWhile nonTerm).length
  (List.range n).findSome? fun i =>
    let len := n - i
    let g := after.take len
    ((spKwAt ['a', 's'] (after.drop len)).bind
      (spKwAt ['d', 'o', 'n', 'e'])).map fun _ => g

/-- Leftmost scan of an unanchored pattern: at each position try each
alternative keyword in order, followed by the continuation; on failure
advance one character, exactly as the regex engine does. -/
def scanAlts (kws : List (List Char)) (cont : List Char → Option β) :
    List Char → Option β
  | [] => none
  | c :: cs =>
    match kws.findSome? (fun kw => (kwAt kw (c :: cs)).bind cont) with
    | some r => some r
    | none => scanAlts kws cont cs

/-- Scan for a single-keyword pattern `kw...`. -/
def scanKw (kw : List Char) (cont : List Char → Option β) (s : List Char) :
    Option β :=
  scanAlts [kw] cont s

/-! ## The Tier-1 classifier (`detectIntentFromText`) -/

inductive VAction
  | create | complete | update | delete | list | unclear
deriving DecidableEq, Repr

structure VoiceIntent where
  action : VAction
  todoText : Option String := none
  targetTodo : Option String := none
  newText : Option String := none
  /-- confidence in tenths of the JS value -/
  confidence : Nat
deriving DecidableEq, Repr

/-- The capture of the first matching completion template, in source
order: `complete\s+(.+)`, `finish\s+(.+)`, `done\s+with\s+(.+)`,
`mark\s+(.+)\s+as\s+done`, `check\s+off\s+(.+)`. -/
def completeTargetSearch (s : List Char) : Option (List Char) :=
  match scanKw "complete".data spDotPlus s with
  | some g => some g
  | none =>
  match scanKw "finish".data spDotPlus s with
  | some g => some g
  | none =>
  match scanKw "done".data
      (fun r => (spKwAt "with".data r).bind spDotPlus) s with
  | some g => some g
  | none =>
  match scanKw "mark".data (spThenCont greedyAsDone) s with
  | some g => some g
  | none =>
  scanKw "check".data (fun r => (spKwAt "off".data r).bind spDotPlus) s

/-- The capture of the first matching deletion template, in source order:
`delete\s+(.+)`, `remove\s+(.+)`, `cancel\s+(.+)`, `drop\s+(.+)`. -/
def deleteTargetSearch (s : List Char) : Option (List Char) :=
  match scanKw "delete".data spDotPlus s with
  | some g => some g
  | none =>
  match scanKw "remove".data spDotPlus s with
  | some g => some g
  | none =>
  match scanKw "cancel".data spDotPlus s with
  | some g => some g
  | none =>
  scanKw "drop".data spDotPlus s

/-- The captures of the first matching update template, in source order:
`update\s+(.+?)\s+to\s+(.+)` and the same for change/modify/edit. -/
def updateTargetSearch (s : List Char) : Option (List Char × List Char) :=
  match scanKw "update".data (spThenCont lazyToPair) s with
  | some g => some g
  | none =>
  match scanKw "change".data (spThenCont lazyToPair) s with
  | some g => some g
  | none =>
  match scanKw "modify".data (spThenCont lazyToPair) s with
  | some g => some g
  | none =>
  scanKw "edit".data (spThenCont lazyToPair) s

/-- The capture of the first matching past-tense completion template, in
source order; each template is `^(v₁|v₂|v₃)\s+(.+)$`. -/
def pastTenseSearch (s : List Char) : Option (List Char) :=
  [["bought".data, "purchased".data, "got".data],
   ["checked".data, "reviewed".data, "read".data],
   ["finished".data, "completed".data, "did".data],
   ["sent".data, "replied to".data, "responded to".data]].findSome?
    fun kws => kws.findSome? fun kw => (kwAt kw s).bind spDotPlusEnd

/-- `detectIntentFromText` (voiceQueryController.ts).  The branch
structure, keyword tables, ordinal shortcuts, template order and
confidence constants mirror the source line by line. -/
def detectIntentL (s : List Char) : VoiceIntent :=
  let lt : List Char := trimL (lowerL s)
  -- COMPLETE patterns
  if includesL lt "complete".data || includesL lt "finish".data ||
     includesL lt "done".data || includesL lt "mark as done".data ||
     includesL lt "check off".data || includesL lt "tick off".data then
    let targetTodo : Option String :=
      if includesL lt "first".data then some "first"
      else if includesL lt "last".data then some "last"
      else if includesL lt "second".data then some "2"
      else if includesL lt "third".data then some "3"
      else
        match completeTargetSearch s with
        | some g => let tg : String := ⟨trimL g⟩
                    if tg = "" then none else some tg
        | none => none
    { action := .complete, targetTodo := targetTodo, confidence := 9 }
  -- DELETE patterns
  else if includesL lt "delete".data || includesL lt "remove".data ||
          includesL lt "cancel".data || includesL lt "drop".data then
    let targetTodo : Option String :=
      if includesL lt "first".data then some "first"
      else if includesL lt "last".data then some "last"
      else
        match deleteTargetSearch s with
        | some g => let tg : String := ⟨trimL g⟩
                    if tg = "" then none else some tg
        | none => none
    { action := .delete, targetTodo := targetTodo, confidence := 9 }
  -- UPDATE patterns
  else if includesL lt "update".data || includesL lt "change".data ||
          includesL lt "modify".data || includesL lt "edit".data ||
          includesL lt " to ".data then
    match updateTargetSearch s with
    | some (g1, g2) =>
      { action := .update, targetTodo := some ⟨trimL g1⟩,
        newText := some ⟨trimL g2⟩, confidence := 9 }
    | none => { action := .update, confidence := 3 }
  -- LIST patterns
  else if includesL lt "show".data || includesL lt "list".data ||
          includesL lt "what".data || includesL lt "display".data ||
          includesL lt "my tasks".data || includesL lt "my todos".data ||
          includesL lt "pending".data ||
          lt = "tasks".data || lt = "todos".data then
    { action := .list, confidence := 9 }
  else
    -- Past tense completion patterns
    match pastTenseSearch s with
    | some g =>
      { action := .complete, targetTodo := some ⟨trimL g⟩, confidence := 8 }
    | none =>
      -- CREATE patterns
      let startsCreate : Bool :=
        "add".data.isPrefixOf lt || "create".data.isPrefixOf lt ||
        "new".data.isPrefixOf lt || "make".data.isPrefixOf lt
      let createHit : Option (List Char) :=
        if startsCreate then
          scanAlts ["add".data, "create".data, "new".data, "make".data]
            spDotPlus s
        else none
      match createHit with
      | some g =>
        { action := .create, todoText := some ⟨trimL g⟩, confidence := 9 }
      | none =>
        -- Default to CREATE if text is long enough
        if lt.length > 2 then
          { action := .create, todoText := some ⟨s⟩, confidence := 6 }
        else
          { action := .unclear, confidence := 1 }


/-- `detectIntentFromText` (voiceQueryController.ts), as a wrapper over
the character-list core `detectIntentL`. -/
def detectIntentFromText (text : String) : VoiceIntent :=
  detectIntentL text.data

/-! ## Tier 2: `parseVoiceCommand` (geminiService.ts)

The Gemini model call is an oracle `Except Unit GIntent`: `.ok` carries
the intent parsed from the model's JSON (fields absent from the JSON are
`none`, mirroring the `{...defaults, ...parsedJson}` merge; a JSON
`action` outside the six-value enum behaves downstream exactly like a
missing one — the dispatch `switch` sends both to its `default` arm — so
it is collapsed to `none`); `.error` collapses a failed model call, a
response with no `{...}` block, and a `JSON.parse` failure, all of which
the source catches identically before running the keyword fallback. -/

structure GIntent where
  action : Option VAction := none
  todoText : Option String := none
  targetTodo : Option String := none
  newText : Option String := none
  confidence : Option Nat := none
deriving DecidableEq, Repr

/-- `text.replace(/^(kw₁|kw₂|...)\s+/i, '')`: strip an anchored leading
verb and the whitespace run after it; if nothing matches, the text is
returned unchanged. -/
def stripAnchored (kws : List (List Char)) (s : List Char) : List Char :=
  match kws.findSome? (fun kw => (kwAt kw s).bind fun r =>
      if (r.takeWhile isJsSpace).isEmpty then none
      else some (r.dropWhile isJsSpace)) with
  | some r => r
  | none => s

/-- The reduced keyword heuristic in `parseVoiceCommand`'s `catch` block. -/
def parseVoiceFallback (text : String) : GIntent :=
  let lt : List Char := lowerL text.data
  if includesL lt "add".data || includesL lt "create".data then
    { action := some .create,
      todoText := some ⟨trimL (stripAnchored
        ["add".data, "create".data, "make".data] text.data)⟩,
      confidence := some 8 }
  else if includesL lt "complete".data || includesL lt "done".data ||
          includesL lt "check".data then
    { action := some .complete,
      targetTodo := some ⟨trimL (stripAnchored
        ["complete".data, "done".data, "check".data, "mark".data] text.data)⟩,
      confidence := some 7 }
  else
    -- the update block falls through to the delete check when its
    -- template does not match (the source has no early return there)
    match (if includesL lt "update".data || includesL lt "change".data then
             scanAlts ["update".data, "change".data] (spThenCont lazyToPair)
               text.data
           else none) with
    | some (g1, g2) =>
      { action := some .update, targetTodo := some ⟨trimL g1⟩,
        newText := some ⟨trimL g2⟩, confidence := some 7 }
    | none =>
      if includesL lt "delete".data || includesL lt "remove".data then
        { action := some .delete,
          targetTodo := some ⟨trimL (stripAnchored
            ["delete".data, "remove".data] text.data)⟩,
          confidence := some 7 }
      else if includesL lt "show".data || includesL lt "list".data then
        { action := some .list, confidence := some 9 }
      else
        { action := some .unclear, confidence := some 3 }

def parseVoiceCommand (text : String) (llm : Except Unit GIntent) : GIntent :=
  match llm with
  | .ok j => j
  | .error _ => parseVoiceFallback text

/-- The `{ ...intent, ...omitUndefined(geminiIntent) }` merge in
`processVoiceCommand`: a Gemini field overrides the Tier-1 field exactly
when it is not `undefined`. -/
def mergeIntent (t1 : VoiceIntent) (g : GIntent) : VoiceIntent :=
  { action := g.action.getD t1.action,
    todoText := (g.todoText.orElse fun _ => t1.todoText),
    targetTodo := (g.targetTodo.orElse fun _ => t1.targetTodo),
    newText := (g.newText.orElse fun _ => t1.newText),
    confidence := g.confidence.getD t1.confidence }

/-! ## The task store (Notion 'Daily Tasks' database)

The store is external; its state is a record and each Notion API request
issued by the controller is logged as a `StoreCall`.  `priority` is the
rank of the select option in the database schema (High = 0, Medium = 1,
Low = 2), which is the key Notion uses for an ascending sort on the
property.  Created tasks carry no `Date` (the source's Date-property
block is commented out). -/

structure Task where
  id : Nat
  title : String
  done : Bool := false
  priority : Nat := 1
  category : String := "Other"
  date : Option String := none
  archived : Bool := false
deriving DecidableEq, Repr

structure Store where
  /-- whether a 'Daily Tasks' database already exists in the workspace -/
  dbPresent : Bool := true
  /-- pages in creation order -/
  tasks : List Task := []
  nextId : Nat := 0
deriving DecidableEq, Repr

inductive StoreCall
  | search | createDb | query
  | pageUpdate (id : Nat) | pageArchive (id : Nat) | pageCreate (id : Nat)
deriving DecidableEq, Repr

/-- Calls that mutate a task (as opposed to collection lookup/creation
and queries). -/
def StoreCall.isTaskMutation : StoreCall → Bool
  | .pageUpdate _ => true
  | .pageArchive _ => true
  | .pageCreate _ => true
  | _ => false

structure CtrlState where
  /-- `this.gtdDatabaseId` has been resolved -/
  dbCached : Bool := false
deriving DecidableEq, Repr

/-- `ensureGTDDatabase`: return the cached id, else search for the
database, else create it under the fallback page. -/
def ensureGTDDatabase (c : CtrlState) (st : Store) :
    CtrlState × Store × List StoreCall :=
  if c.dbCached then (c, st, [])
  else if st.dbPresent then ({ dbCached := true }, st, [.search])
  else ({ dbCached := true }, { st with dbPresent := true },
        [.search, .createDb])

/-- Stable insertion sort by priority rank (ascending), preserving
creation order among equal ranks. -/
def insertByRank (t : Task) : List Task → List Task
  | [] => [t]
  | u :: us =>
    if u.priority ≤ t.priority then u :: insertByRank t us
    else t :: u :: us

def sortByRank : List Task → List Task
  | [] => []
  | t :: ts => insertByRank t (sortByRank ts)

/-- The positional-branch query: incomplete tasks dated today, sorted by
priority ascending.  Archived pages are excluded from Notion query
results. -/
def queryTodoToday (st : Store) (today : String) : List Task :=
  sortByRank (st.tasks.filter fun t =>
    !t.archived && !t.done && t.date == some today)

/-- The text-search query: all incomplete tasks (the source removed the
date filter here), in creation order. -/
def queryTodo (st : Store) : List Task :=
  st.tasks.filter fun t => !t.archived && !t.done

/-- An unfiltered query: every non-archived page. -/
def queryAll (st : Store) : List Task :=
  st.tasks.filter fun t => !t.archived

/-- A `Task title contains q` query.  Notion's title `contains` filter is
case-insensitive. -/
def queryTitleContains (st : Store) (q : String) : List Task :=
  st.tasks.filter fun t =>
    !t.archived && includesL (lowerL t.title.data) (lowerL q.data)

def markDone (st : Store) (id : Nat) : Store :=
  { st with tasks := st.tasks.map fun t =>
      if t.id = id then { t with done := true } else t }

def setTitle (st : Store) (id : Nat) (title : String) : Store :=
  { st with tasks := st.tasks.map fun t =>
      if t.id = id then { t with title := title } else t }

def archiveTask (st : Store) (id : Nat) : Store :=
  { st with tasks := st.tasks.map fun t =>
      if t.id = id then { t with archived := true } else t }

/-! ## Handlers -/

structure CmdResult where
  success : Bool
  message : String
  taskId : Option Nat := none
deriving DecidableEq, Repr

structure HandlerOut where
  result : CmdResult
  ctrl : CtrlState
  store : Store
  calls : List StoreCall
deriving DecidableEq, Repr

/-- JavaScript `a || b` for an optional string `a` ( `undefined` and `""`
are falsy). -/
def jsOrDefault (o : Option String) (d : String) : String :=
  match o with
  | some s => if s = "" then d else s
  | none => d

/-- Truthiness normalisation of an optional string field
(`if (intent.x)`): `undefined` and `""` both fail the test. -/
def jsStr? (o : Option String) : Option String :=
  match o with
  | some s => if s = "" then none else some s
  | none => none

/-- `!isNaN(Number(s))`, restricted to the string shapes the controller
produces (digit strings, the empty string — whose `Number` is 0 — and
free text, which is NaN).  Signs, decimals and exponents are not
modelled. -/
def jsIsNumeric (s : String) : Bool :=
  let t := trimL s.data
  t.isEmpty || t.all Char.isDigit

/-- `Number(s)` for the strings accepted by `jsIsNumeric`. -/
def jsNumber (s : String) : Int :=
  ((trimL s.data).foldl (fun a c => a * 10 + (c.toNat - 48)) 0 : Nat)

/-- The positional branch of `handleCompleteGTD`, as a function of the
(already sorted) query result: `first` ↦ head, `last` ↦ last element,
a numeric token `n` ↦ the 1-based `n`-th element, out of range ↦ none. -/
def findByPosition (tok : String) (ts : List Task) : Option Task :=
  if tok = "first" then ts.head?
  else if tok = "last" then ts.getLast?
  else if jsIsNumeric tok then
    let index : Int := jsNumber tok - 1
    if 0 ≤ index ∧ index < (ts.length : Int) then ts.get? index.toNat
    else none
  else none

/-- Exact case-insensitive title equality (first fuzzy tier). -/
def exactPred (q : String) (t : Task) : Bool :=
  lowerL t.title.data = lowerL q.data

/-- Substring containment in either direction (second fuzzy tier). -/
def substrPred (q : String) (t : Task) : Bool :=
  includesL (lowerL t.title.data) (lowerL q.data) ||
  includesL (lowerL q.data) (lowerL t.title.data)

/-- Some word of the query (split on single spaces) occurs in the title
(third fuzzy tier). -/
def wordPred (q : String) (t : Task) : Bool :=
  (splitSp (lowerL q.data)).any fun w => includesL (lowerL t.title.data) w

/-- The fuzzy search in `handleCompleteGTD`: exact, then substring, then
word match, first hit in query order. -/
def findByFuzzyTitle (q : String) (ts : List Task) : Option Task :=
  match ts.find? (exactPred q) with
  | some t => some t
  | none =>
    match ts.find? (substrPred q) with
    | some t => some t
    | none => ts.find? (wordPred q)

/-- The text-search tail of `handleCompleteGTD` (query all incomplete
tasks, fuzzy match, mark the hit as done). -/
def completeByText (searchText : String) (st : Store) :
    CmdResult × Store × List StoreCall :=
  match findByFuzzyTitle searchText (queryTodo st) with
  | none =>
    ({ success := false,
       message := "Couldn't find \"" ++ searchText ++
         "\" in your tasks. Try 'show tasks' to see what's available." },
     st, [.query])
  | some t =>
    ({ success := true, message := "✅ Completed \"" ++ t.title ++ "\"",
       taskId := some t.id },
     markDone st t.id, [.query, .pageUpdate t.id])

def handleCompleteGTD (c : CtrlState) (intent : VoiceIntent)
    (originalText today : String) (st : Store) : HandlerOut :=
  let ec := ensureGTDDatabase c st
  let searchText := jsOrDefault intent.targetTodo originalText
  if searchText = "first" ∨ searchText = "last" ∨ jsIsNumeric searchText then
    match findByPosition searchText (queryTodoToday ec.2.1 today) with
    | some t =>
      { result := { success := true,
                    message := "✅ Completed \"" ++ t.title ++ "\"",
                    taskId := some t.id },
        ctrl := ec.1, store := markDone ec.2.1 t.id,
        calls := ec.2.2 ++ [.query, .pageUpdate t.id] }
    | none =>
      let r := completeByText searchText ec.2.1
      { result := r.1, ctrl := ec.1, store := r.2.1,
        calls := ec.2.2 ++ [.query] ++ r.2.2 }
  else
    let r := completeByText searchText ec.2.1
    { result := r.1, ctrl := ec.1, store := r.2.1,
      calls := ec.2.2 ++ r.2.2 }

/-- `extractPriority`, returning the select-option rank
(High = 0, Medium = 1, Low = 2). -/
def extractPriority (text : String) : Nat :=
  let lt := lowerL text.data
  if includesL lt "urgent".data || includesL lt "high priority".data ||
     includesL lt "important".data then 0
  else if includesL lt "low priority".data ||
          includesL lt "not urgent".data then 2
  else 1

def extractCategory (text : String) : String :=
  let lt := lowerL text.data
  if includesL lt "work".data || includesL lt "office".data ||
     includesL lt "meeting".data then "Work"
  else if includesL lt "personal".data || includesL lt "home".data ||
          includesL lt "family".data then "Personal"
  else if includesL lt "buy".data || includesL lt "shop".data ||
          includesL lt "purchase".data then "Shopping"
  else if includesL lt "email".data || includesL lt "reply".data ||
          includesL lt "send".data then "Email"
  else "Other"

/-- `originalText.replace(/^(add|create|new|make|remember|remind)\s+/i, '')`. -/
def stripCreateVerb (s : List Char) : List Char :=
  stripAnchored ["add".data, "create".data, "new".data, "make".data,
    "remember".data, "remind".data] s

def handleCreateGTD (c : CtrlState) (intent : VoiceIntent)
    (originalText : String) (st : Store) : HandlerOut :=
  let taskText :=
    jsOrDefault intent.todoText ⟨trimL (stripCreateVerb originalText.data)⟩
  if taskText = "" then
    { result := { success := false,
                  message := "I didn't catch what task you want to add. Please try again." },
      ctrl := c, store := st, calls := [] }
  else
    let ec := ensureGTDDatabase c st
    let st1 := ec.2.1
    let t : Task := { id := st1.nextId, title := taskText,
                      priority := extractPriority originalText,
                      category := extractCategory originalText }
    { result := { success := true,
                  message := "✅ Added \"" ++ taskText ++ "\" to your tasks",
                  taskId := some t.id },
      ctrl := ec.1,
      store := { st1 with tasks := st1.tasks ++ [t], nextId := st1.nextId + 1 },
      calls := ec.2.2 ++ [.pageCreate t.id] }

def handleUpdateGTD (c : CtrlState) (intent : VoiceIntent) (st : Store) :
    HandlerOut :=
  match jsStr? intent.targetTodo with
  | none =>
    { result := { success := false,
                  message := "Which task do you want to update?" },
      ctrl := c, store := st, calls := [] }
  | some target =>
    let ec := ensureGTDDatabase c st
    match queryTitleContains ec.2.1 target with
    | [] =>
      { result := { success := false,
                    message := "Couldn't find task \"" ++ target ++ "\"" },
        ctrl := ec.1, store := ec.2.1, calls := ec.2.2 ++ [.query] }
    | found :: _ =>
      -- `pages.update` is issued even when `updateProperties` is empty
      let st2 := match jsStr? intent.newText with
        | some nt => setTitle ec.2.1 found.id nt
        | none => ec.2.1
      let suffix := match jsStr? intent.newText with
        | some nt => " to \"" ++ nt ++ "\""
        | none => ""
      { result := { success := true,
                    message := "Updated \"" ++ target ++ "\"" ++ suffix,
                    taskId := some found.id },
        ctrl := ec.1, store := st2,
        calls := ec.2.2 ++ [.query, .pageUpdate found.id] }

def handleDeleteGTD (c : CtrlState) (intent : VoiceIntent) (st : Store) :
    HandlerOut :=
  match jsStr? intent.targetTodo with
  | none =>
    { result := { success := false,
                  message := "Which task do you want to delete?" },
      ctrl := c, store := st, calls := [] }
  | some target =>
    let ec := ensureGTDDatabase c st
    let tasksToDelete :=
      if lowerS target = "all" then queryAll ec.2.1
      else queryTitleContains ec.2.1 target
    match tasksToDelete with
    | [] =>
      { result := { success := false,
                    message := "Couldn't find task \"" ++ target ++ "\"" },
        ctrl := ec.1, store := ec.2.1, calls := ec.2.2 ++ [.query] }
    | first :: _ =>
      let message :=
        if lowerS target = "all" then
          "🗑️ Deleted all " ++ toString tasksToDelete.length ++ " tasks"
        else
          "🗑️ Deleted \"" ++ first.title ++ "\""
      { result := { success := true, message := message },
        ctrl := ec.1,
        store := tasksToDelete.foldl (fun s t => archiveTask s t.id) ec.2.1,
        calls := ec.2.2 ++ [.query] ++
          tasksToDelete.map (fun t => .pageArchive t.id) }

/-- The list query sort: status first (Todo before Done, per the source's
stated intent), then priority ascending, stable. -/
def sortForList (ts : List Task) : List Task :=
  sortByRank (ts.filter fun t => !t.done) ++
  sortByRank (ts.filter fun t => t.done)

def priorityMark (rank : Nat) : String :=
  if rank = 0 then "🔴" else if rank = 2 then "🟢" else "🟡"

def handleListGTD (c : CtrlState) (st : Store) : HandlerOut :=
  let ec := ensureGTDDatabase c st
  let tasks := sortForList (queryAll ec.2.1)
  let todoTasks := tasks.filter fun t => !t.done
  let doneTasks := tasks.filter fun t => t.done
  let result :=
    if tasks.isEmpty then
      ({ success := true,
         message := "📋 No tasks yet. Start by adding some!" } : CmdResult)
    else
      let header := "📋 Your tasks (" ++ toString doneTasks.length ++ "/" ++
        toString tasks.length ++ " done):\n"
      let todoPart :=
        if todoTasks.isEmpty then ""
        else "\n📝 To do:\n" ++ String.join
          ((todoTasks.enum.map fun p =>
            toString (p.1 + 1) ++ ". " ++ p.2.title ++ " " ++
              priorityMark p.2.priority ++ "\n"))
      let donePart :=
        if doneTasks.isEmpty then ""
        else "\n✅ Completed:\n" ++ String.join
          (doneTasks.map fun t => "• " ++ t.title ++ "\n")
      { success := true, message := header ++ todoPart ++ donePart }
  { result := result, ctrl := ec.1, store := ec.2.1,
    calls := ec.2.2 ++ [.query] }

/-! ## The pipeline (`processVoiceCommand`) -/

structure PipeOut where
  /-- HTTP-level success of the JSON body (false only on the 400 path) -/
  ok : Bool
  error : Option String := none
  transcribedText : Option String := none
  intent : Option VoiceIntent := none
  result : Option CmdResult := none
  audioResponse : Option String := none
  ctrl : CtrlState
  store : Store
  calls : List StoreCall := []
  geminiCalled : Bool := false
  ensureInvoked : Bool := false
deriving DecidableEq, Repr

/-- Steps 2–3 of the pipeline: Tier-1 detection, then the Gemini merge
exactly when Tier 1 returned `unclear`.  Also reports whether Gemini was
consulted. -/
def resolveIntent (text : String) (llm : Except Unit GIntent) :
    VoiceIntent × Bool :=
  let t1 := detectIntentFromText text
  if t1.action = .unclear then
    (mergeIntent t1 (parseVoiceCommand text llm), true)
  else (t1, false)

/-- Step 5 of the pipeline: the `switch (intent.action)` dispatch.  The
`default` arm covers `unclear` (and, in the source, any non-enum action
string). -/
def dispatchIntent (c : CtrlState) (intent : VoiceIntent)
    (commandText today : String) (st : Store) : HandlerOut :=
  match intent.action with
  | .create => handleCreateGTD c intent commandText st
  | .complete => handleCompleteGTD c intent commandText today st
  | .update => handleUpdateGTD c intent st
  | .delete => handleDeleteGTD c intent st
  | .list => handleListGTD c st
  | .unclear =>
    { result := { success := false,
                  message := "I didn't understand. Try: 'add task', 'complete task', 'show tasks'." },
      ctrl := c, store := st, calls := [] }

/-- `generateAudioResponse`: the ElevenLabs synthesis oracle; a failure
is caught and yields the empty base64 string. -/
def generateAudioResponse (synth : Except Unit String) : String :=
  match synth with
  | .ok b64 => b64
  | .error _ => ""

/-- Step 1 of the pipeline: the command text is the request's `text`
field if truthy, else the transcription of the attached audio; an empty
final text fails the `if (!commandText)` guard. -/
def resolveCommandText (text? transcript : Option String) : Option String :=
  let ct0 : Option String :=
    match text? with
    | some t => if t = "" then transcript else some t
    | none => transcript
  match ct0 with
  | some t => if t = "" then none else some t
  | none => none

/-- `processVoiceCommand`.  `text?` is the request's `text` field,
`transcript` the transcription oracle for an attached `audioBuffer`
(`none` when no audio was sent), `llm` the Gemini oracle, `synth` the
speech-synthesis oracle, `today` the current date string. -/
def processVoiceCommand (c : CtrlState) (text? : Option String)
    (transcript : Option String) (llm : Except Unit GIntent)
    (returnAudio : Bool) (synth : Except Unit String) (today : String)
    (st : Store) : PipeOut :=
  match resolveCommandText text? transcript with
  | none =>
    { ok := false, error := some "No command provided", ctrl := c, store := st }
  | some commandText =>
    let ig := resolveIntent commandText llm
    let ec := ensureGTDDatabase c st
    let h := dispatchIntent ec.1 ig.1 commandText today ec.2.1
    let audio : Option String :=
      if returnAudio ∧ h.result.message ≠ "" then
        some (generateAudioResponse synth)
      else none
    { ok := true, transcribedText := some commandText, intent := some ig.1,
      result := some h.result, audioResponse := audio, ctrl := h.ctrl,
      store := h.store, calls := ec.2.2 ++ h.calls,
      geminiCalled := ig.2, ensureInvoked := true }

/-- Sample stores and tasks used by concrete witnesses and
counterexamples. -/
def emptyStore : Store := { dbPresent := true, tasks := [], nextId := 0 }

def chapterStore : Store :=
  { dbPresent := true,
    tasks := [{ id := 0, title := "read chapter 5",
                date := some "2026-10-12" }],
    nextId := 1 }

def milkStore : Store :=
  { dbPresent := true, tasks := [{ id := 0, title := "buy milk" }],
    nextId := 1 }

/-- No nonempty proper suffix of `l₁` is a proper prefix of `kw`:
rules out occurrences of `kw` spanning the junction of `l₁ ++ l₂`. -/
def junctionFree (l₁ kw : List Char) : Bool :=
  l₁.tails.all fun t₁ => t₁.isEmpty || !(t₁.isPrefixOf kw) || t₁ == kw

/-! ## Infrastructure lemmas

Bridging between the executable string primitives and the `List`
prefix/infix order of the library, plus computation lemmas for the
matchers on structured inputs. -/

theorem includesL_iff {pat : List Char} :
    ∀ {s : List Char}, includesL s pat = true ↔ pat <:+: s := by
  intro s
  induction s with
  | nil =>
    simp [includesL, isInfixL, List.isEmpty_iff, List.infix_nil]
  | cons c cs ih =>
    simp only [includesL, isInfixL, Bool.or_eq_true,
      List.isPrefixOf_iff_prefix] at *
    constructor
    · rintro (h | h)
      · exact h.isInfix
      · exact List.infix_cons (ih.mp h)
    · intro h
      obtain ⟨s₁, s₂, hh⟩ := h
      cases s₁ with
      | nil => exact Or.inl ⟨s₂, by simpa using hh⟩
      | cons x s₁' =>
        simp only [List.cons_append] at hh
        exact Or.inr (ih.mpr ⟨s₁', s₂, (List.cons.injEq .. ▸ hh).2⟩)

theorem includesL_eq_false {pat s : List Char} :
    includesL s pat = false ↔ ¬ pat <:+: s := by
  rw [← includesL_iff, Bool.not_eq_true, Bool.eq_false_iff, ne_eq]

theorem kwAt_some {kw : List Char} :
    ∀ {s r : List Char}, kwAt kw s = some r →
      ∃ v, s = v ++ r ∧ lowerL v = kw := by
  induction kw with
  | nil =>
    intro s r h
    simp only [kwAt, Option.some.injEq] at h
    exact ⟨[], by simp [h], rfl⟩
  | cons k ks ih =>
    intro s r h
    cases s with
    | nil => simp [kwAt] at h
    | cons c cs =>
      simp only [kwAt] at h
      split at h
      · obtain ⟨v, rfl, hv⟩ := ih h
        refine ⟨c :: v, rfl, ?_⟩
        simp only [lowerL, List.map_cons] at hv ⊢
        rename_i hc
        rw [hc, hv]
      · exact absurd h (by simp)

theorem kwAt_append {v : List Char} :
    ∀ {kw s : List Char}, lowerL v = kw → kwAt kw (v ++ s) = some s := by
  induction v with
  | nil => intro kw s h; rw [← h]; rfl
  | cons c v' ih =>
    intro kw s h
    rw [← h]
    simp only [lowerL, List.map_cons, List.cons_append, kwAt, if_pos rfl]
    exact ih rfl

theorem kwAt_eq_none {kw s : List Char} (h : ¬ kw <+: lowerL s) :
    kwAt kw s = none := by
  cases hk : kwAt kw s with
  | none => rfl
  | some r =>
    obtain ⟨v, rfl, hv⟩ := kwAt_some hk
    subst hv
    exact absurd ⟨lowerL r, by simp [lowerL, List.map_append]⟩ h

theorem scanAlts_eq_none {β : Type} {kws : List (List Char)}
    {cont : List Char → Option β} :
    ∀ {s : List Char}, (∀ kw ∈ kws, ¬ kw <:+: lowerL s) →
      scanAlts kws cont s = none := by
  intro s
  induction s with
  | nil => intro _; rfl
  | cons c cs ih =>
    intro h
    have hfind :
        kws.findSome? (fun kw => (kwAt kw (c :: cs)).bind cont) = none := by
      rw [List.findSome?_eq_none_iff]
      intro kw hkw
      rw [kwAt_eq_none, Option.none_bind]
      intro hp
      exact h kw hkw hp.isInfix
    simp only [scanAlts, hfind]
    refine ih fun kw hkw hi => h kw hkw ?_
    simpa [lowerL] using List.infix_cons hi

theorem prefix_append_split {α : Type} {l₁ : List α} :
    ∀ {t l₂ : List α}, t <+: l₁ ++ l₂ →
      t <+: l₁ ∨ ∃ t₂, t = l₁ ++ t₂ ∧ t₂ <+: l₂ := by
  induction l₁ with
  | nil => intro t l₂ h; exact Or.inr ⟨t, by simp, by simpa using h⟩
  | cons a l₁' ih =>
    intro t l₂ h
    cases t with
    | nil => exact Or.inl ⟨a :: l₁', by simp⟩
    | cons b t' =>
      rw [List.cons_append, List.cons_prefix_cons] at h
      obtain ⟨rfl, h2⟩ := h
      rcases ih h2 with h1 | ⟨t₂, rfl, hp⟩
      · exact Or.inl (List.cons_prefix_cons.mpr ⟨rfl, h1⟩)
      · exact Or.inr ⟨t₂, by simp, hp⟩

theorem infix_cons_split {α : Type} {t : List α} {a : α} {rest : List α}
    (h : t <:+: a :: rest) : t <+: a :: rest ∨ t <:+: rest := by
  obtain ⟨s₁, s₂, hh⟩ := h
  cases s₁ with
  | nil => exact Or.inl ⟨s₂, by simpa using hh⟩
  | cons x s₁' =>
    simp only [List.cons_append] at hh
    exact Or.inr ⟨s₁', s₂, (List.cons.injEq .. ▸ hh).2⟩

theorem infix_append_split {α : Type} {l₁ : List α} :
    ∀ {t l₂ : List α}, t <:+: l₁ ++ l₂ →
      t <:+: l₁ ∨ t <:+: l₂ ∨
        ∃ t₁ t₂, t = t₁ ++ t₂ ∧ t₁ ≠ [] ∧ t₁ <:+ l₁ ∧ t₂ <+: l₂ := by
  induction l₁ with
  | nil => intro t l₂ h; exact Or.inr (Or.inl (by simpa using h))
  | cons a l₁' ih =>
    intro t l₂ h
    rw [List.cons_append] at h
    rcases infix_cons_split h with hp | hi
    · rw [← List.cons_append] at hp
      rcases prefix_append_split hp with h1 | ⟨t₂, rfl, hp2⟩
      · exact Or.inl h1.isInfix
      · exact Or.inr (Or.inr
          ⟨a :: l₁', t₂, rfl, by simp, List.suffix_refl _, hp2⟩)
    · rcases ih hi with h1 | h1 | ⟨t₁, t₂, rfl, hne, hs, hp2⟩
      · exact Or.inl (List.infix_cons h1)
      · exact Or.inr (Or.inl h1)
      · exact Or.inr (Or.inr
          ⟨t₁, t₂, rfl, hne, hs.trans (List.suffix_cons a l₁'), hp2⟩)

theorem not_infix_append {kw l₁ l₂ : List Char} (h₁ : ¬ kw <:+: l₁)
    (h₂ : ¬ kw <:+: l₂) (hj : junctionFree l₁ kw = true) :
    ¬ kw <:+: l₁ ++ l₂ := by
  intro h
  rcases infix_append_split h with h' | h' | ⟨t₁, t₂, heq, hne, hs, hp⟩
  · exact h₁ h'
  · exact h₂ h'
  · have hmem : t₁ ∈ l₁.tails := (List.mem_tails _ _).mpr hs
    have hall := List.all_eq_true.mp hj t₁ hmem
    have hpre : t₁ <+: kw := ⟨t₂, heq.symm⟩
    have hall' : (t₁ = [] ∨ t₁.isPrefixOf kw = false) ∨ t₁ = kw := by
      simpa [List.isEmpty_iff, Bool.not_eq_true'] using hall
    rcases hall' with (h3 | h3) | h3
    · exact hne h3
    · have hb := (List.isPrefixOf_iff_prefix).mpr hpre
      rw [h3] at hb
      cases hb
    · subst h3
      exact h₁ hs.isInfix

theorem takeWhile_eq_self_of_all {p : Char → Bool} :
    ∀ {l : List Char}, l.all p = true → l.takeWhile p = l := by
  intro l
  induction l with
  | nil => intro _; rfl
  | cons c cs ih =>
    intro h
    simp only [List.all_cons, Bool.and_eq_true] at h
    simp [List.takeWhile_cons, h.1, ih h.2]

theorem spDotPlus_space {r : Char} {rs : List Char}
    (h1 : isJsSpace r = false) (h2 : (r :: rs).all nonTerm = true) :
    spDotPlus (' ' :: r :: rs) = some (r :: rs) := by
  have hsp : isJsSpace ' ' = true := by decide
  have ht : List.takeWhile isJsSpace (' ' :: r :: rs) = [' '] := by
    simp [List.takeWhile_cons, h1, hsp]
  have hd : List.dropWhile isJsSpace (' ' :: r :: rs) = r :: rs := by
    simp [List.dropWhile_cons, h1, hsp]
  have hinner : dotPlusInner (r :: rs) = some (r :: rs) := by
    unfold dotPlusInner
    rw [takeWhile_eq_self_of_all h2]
    simp
  unfold spDotPlus spThenCont
  rw [ht, hd, List.reverse_singleton]
  simp [btCont, hinner]

theorem spDotPlusEnd_space {r : Char} {rs : List Char}
    (h1 : isJsSpace r = false) (h2 : (r :: rs).all nonTerm = true) :
    spDotPlusEnd (' ' :: r :: rs) = some (r :: rs) := by
  have hsp : isJsSpace ' ' = true := by decide
  have ht : List.takeWhile isJsSpace (' ' :: r :: rs) = [' '] := by
    simp [List.takeWhile_cons, h1, hsp]
  have hd : List.dropWhile isJsSpace (' ' :: r :: rs) = r :: rs := by
    simp [List.dropWhile_cons, h1, hsp]
  have hinner : dotPlusEndInner (r :: rs) = some (r :: rs) := by
    unfold dotPlusEndInner
    simp [h2]
  unfold spDotPlusEnd spThenCont
  rw [ht, hd, List.reverse_singleton]
  simp [btCont, hinner]

theorem mem_insertByRank {t x : Task} :
    ∀ {l : List Task}, x ∈ insertByRank t l ↔ x = t ∨ x ∈ l := by
  intro l
  induction l with
  | nil => simp [insertByRank]
  | cons u us ih =>
    unfold insertByRank
    split
    · simp only [List.mem_cons, ih]
      tauto
    · simp [List.mem_cons]

theorem pairwise_insertByRank {t : Task} :
    ∀ {l : List Task},
      l.Pairwise (fun a b => a.priority ≤ b.priority) →
      (insertByRank t l).Pairwise (fun a b => a.priority ≤ b.priority) := by
  intro l
  induction l with
  | nil => intro _; simp [insertByRank]
  | cons u us ih =>
    intro h
    rw [List.pairwise_cons] at h
    unfold insertByRank
    split
    · rename_i hle
      rw [List.pairwise_cons]
      refine ⟨?_, ih h.2⟩
      intro v hv
      rcases mem_insertByRank.mp hv with rfl | hv
      · exact hle
      · exact h.1 v hv
    · rename_i hgt
      push_neg at hgt
      rw [List.pairwise_cons]
      refine ⟨?_, List.pairwise_cons.mpr h⟩
      intro v hv
      rcases List.mem_cons.mp hv with rfl | hv
      · exact le_of_lt hgt
      · exact le_trans (le_of_lt hgt) (h.1 v hv)

theorem sortByRank_pairwise :
    ∀ l : List Task,
      (sortByRank l).Pairwise (fun a b => a.priority ≤ b.priority) := by
  intro l
  induction l with
  | nil => simp [sortByRank]
  | cons t ts ih => exact pairwise_insertByRank ih

theorem ensure_tasks (c : CtrlState) (st : Store) :
    (ensureGTDDatabase c st).2.1.tasks = st.tasks := by
  unfold ensureGTDDatabase
  split
  · rfl
  split <;> rfl

theorem ensure_calls_no_mutation (c : CtrlState) (st : Store) :
    ((ensureGTDDatabase c st).2.2.filter (·.isTaskMutation)) = [] := by
  unfold ensureGTDDatabase
  split
  · rfl
  split <;> rfl

theorem queryTitleContains_congr {st st' : Store} (h : st.tasks = st'.tasks)
    (q : String) : queryTitleContains st q = queryTitleContains st' q := by
  simp [queryTitleContains, h]

theorem not_prefix_append_of {p l₁ l₂ : List Char} (h1 : ¬ p <+: l₁)
    (h2 : ¬ l₁ <+: p) : ¬ p <+: l₁ ++ l₂ := by
  intro hp
  rcases prefix_append_split hp with h | ⟨t₂, rfl, _⟩
  · exact h1 h
  · exact h2 ⟨t₂, rfl⟩

theorem trimL_ne_nil {r : Char} {rs : List Char} (h : isJsSpace r = false) :
    trimL (r :: rs) ≠ [] := by
  intro hnil
  unfold trimL at hnil
  rw [List.dropWhile_cons, h] at hnil
  simp only [if_false, List.reverse_eq_nil_iff] at hnil
  have hall := List.dropWhile_eq_nil_iff.mp hnil
  have := hall r (by simp)
  rw [h] at this
  cases this

theorem pastTenseSearch_eq_none {s : List Char}
    (h1 : kwAt "bought".data s = none)
    (h2 : kwAt "purchased".data s = none)
    (h3 : kwAt "got".data s = none)
    (h4 : kwAt "checked".data s = none)
    (h5 : kwAt "reviewed".data s = none)
    (h6 : kwAt "read".data s = none)
    (h7 : kwAt "finished".data s = none)
    (h8 : kwAt "completed".data s = none)
    (h9 : kwAt "did".data s = none)
    (h10 : kwAt "sent".data s = none)
    (h11 : kwAt "replied to".data s = none)
    (h12 : kwAt "responded to".data s = none) :
    pastTenseSearch s = none := by
  simp [pastTenseSearch, h1, h2, h3, h4, h5, h6, h7, h8, h9, h10, h11, h12]

theorem scanKw_eq_none_append {β : Type} {kw l₁ l₂ : List Char}
    {cont : List Char → Option β}
    (h1 : ¬ kw <:+: lowerL l₁) (h2 : includesL (lowerL l₂) kw = false)
    (hj : junctionFree (lowerL l₁) kw = true) :
    scanKw kw cont (l₁ ++ l₂) = none := by
  apply scanAlts_eq_none
  intro k hk
  rw [List.mem_singleton] at hk
  subst hk
  have : lowerL (l₁ ++ l₂) = lowerL l₁ ++ lowerL l₂ := by
    simp [lowerL, List.map_append]
  rw [this]
  exact not_infix_append h1 (includesL_eq_false.mp h2) hj

/-! ## Claim theorems -/

/-- C1, counterexample: for the unclear command `"x"` (Tier 1 and the
Gemini fallback both return `unclear`), the claimed invariant "no call to
the task store — neither a task mutation nor the collection
lookup/creation (ensureGTDDatabase) is performed" fails on the code: the
pipeline still performs the collection search before dispatching. -/
theorem c1_counterexample :
    (processVoiceCommand { dbCached := false } (some "x") none (.error ())
        false (.error ()) "2026-10-12"
        { dbPresent := true, tasks := [], nextId := 0 }).intent =
      some { action := .unclear, confidence := 3 } ∧
    (processVoiceCommand { dbCached := false } (some "x") none (.error ())
        false (.error ()) "2026-10-12"
        { dbPresent := true, tasks := [], nextId := 0 }).calls =
      [.search] := by
  decide

/-- C1 (amended): for every command whose resolved intent has
`action = unclear`, the orchestrator answers with the canned
clarification message and performs no task mutation (the task list is
unchanged and no page create/update/archive call is issued) — but
`ensureGTDDatabase` is still invoked before the dispatch, performing the
collection search (and creation, on a cold cache) even for unclear
intents. -/
theorem c1_unclear_no_task_mutation (c : CtrlState) (text : String)
    (llm : Except Unit GIntent) (returnAudio : Bool)
    (synth : Except Unit String) (today : String) (st : Store)
    (htext : text ≠ "")
    (hact : (resolveIntent text llm).1.action = .unclear) :
    (processVoiceCommand c (some text) none llm returnAudio synth today
        st).result =
      some { success := false, message :=
        "I didn't understand. Try: 'add task', 'complete task', 'show tasks'." } ∧
    ((processVoiceCommand c (some text) none llm returnAudio synth today
        st).calls.filter (·.isTaskMutation)) = [] ∧
    (processVoiceCommand c (some text) none llm returnAudio synth today
        st).ensureInvoked = true ∧
    (processVoiceCommand c (some text) none llm returnAudio synth today
        st).store.tasks = st.tasks := by
  have hct : resolveCommandText (some text) none = some text := by
    simp [resolveCommandText, htext]
  simp only [processVoiceCommand, hct]
  simp only [dispatchIntent, hact]
  refine ⟨by trivial, ?_, by trivial, ?_⟩
  · simpa using ensure_calls_no_mutation c st
  · exact ensure_tasks c st

/-- C1 witness. -/
theorem c1_unclear_no_task_mutation_witness :
    (processVoiceCommand { dbCached := false } (some "zq") none (.error ())
        false (.error ()) "2026-10-12"
        { dbPresent := true, tasks := [], nextId := 0 }).result =
      some { success := false, message :=
        "I didn't understand. Try: 'add task', 'complete task', 'show tasks'." } ∧
    ((processVoiceCommand { dbCached := false } (some "zq") none (.error ())
        false (.error ()) "2026-10-12"
        { dbPresent := true, tasks := [], nextId := 0 }).calls.filter
        (·.isTaskMutation)) = [] ∧
    (processVoiceCommand { dbCached := false } (some "zq") none (.error ())
        false (.error ()) "2026-10-12"
        { dbPresent := true, tasks := [], nextId := 0 }).ensureInvoked =
      true ∧
    (processVoiceCommand { dbCached := false } (some "zq") none (.error ())
        false (.error ()) "2026-10-12"
        { dbPresent := true, tasks := [], nextId := 0 }).store.tasks =
      ({ dbPresent := true, tasks := [], nextId := 0 } : Store).tasks :=
  c1_unclear_no_task_mutation { dbCached := false } "zq" (.error ()) false
    (.error ()) "2026-10-12" { dbPresent := true, tasks := [], nextId := 0 }
    (by decide) (by decide)

/-- C2, counterexample: a `complete` intent with no `targetTodo` does not
produce the clarification question; `handleCompleteGTD` substitutes the
original command text (`"done"`) as the search target and queries the
store. -/
theorem c2_counterexample :
    (handleCompleteGTD { dbCached := true }
        { action := .complete, confidence := 9 } "done" "2026-10-12"
        { dbPresent := true, tasks := [], nextId := 0 }).result.message ≠
      "Which task do you want to complete?" ∧
    (handleCompleteGTD { dbCached := true }
        { action := .complete, confidence := 9 } "done" "2026-10-12"
        { dbPresent := true, tasks := [], nextId := 0 }).calls =
      [.query] := by
  decide

/-- C2 (amended): for a `delete` intent with absent `targetTodo` the
handler responds "Which task do you want to delete?" and performs no
store operation; but for a `complete` intent with absent `targetTodo`
the handler substitutes the original command text as the search target
and proceeds exactly as if that text had been the target. -/
theorem c2_missing_target (c : CtrlState) (intent : VoiceIntent)
    (orig today : String) (st : Store) (h : intent.targetTodo = none) :
    handleDeleteGTD c intent st =
      { result := { success := false,
                    message := "Which task do you want to delete?" },
        ctrl := c, store := st, calls := [] } ∧
    handleCompleteGTD c intent orig today st =
      handleCompleteGTD c { intent with targetTodo := some orig } orig
        today st := by
  constructor
  · simp [handleDeleteGTD, jsStr?, h]
  · simp [handleCompleteGTD, jsOrDefault, h, ite_self]

/-- C2 witness. -/
theorem c2_missing_target_witness :
    handleDeleteGTD { dbCached := true }
        { action := .delete, confidence := 9 }
        { dbPresent := true, tasks := [], nextId := 0 } =
      { result := { success := false,
                    message := "Which task do you want to delete?" },
        ctrl := { dbCached := true },
        store := { dbPresent := true, tasks := [], nextId := 0 },
        calls := [] } ∧
    handleCompleteGTD { dbCached := true }
        { action := .complete, confidence := 9 } "done" "2026-10-12"
        { dbPresent := true, tasks := [], nextId := 0 } =
      handleCompleteGTD { dbCached := true }
        { action := .complete, targetTodo := some "done", confidence := 9 }
        "done" "2026-10-12"
        { dbPresent := true, tasks := [], nextId := 0 } :=
  c2_missing_target { dbCached := true }
    { action := .complete, confidence := 9 } "done" "2026-10-12"
    { dbPresent := true, tasks := [], nextId := 0 } rfl |>.imp
    (fun _ => c2_missing_target { dbCached := true }
      { action := .delete, confidence := 9 } "done" "2026-10-12"
      { dbPresent := true, tasks := [], nextId := 0 } rfl |>.1) id

/-- C3, counterexample: an `update` intent with a target but no `newText`
does not produce a clarification; the handler looks the task up, issues a
`pages.update` call with no property changes, and reports success. -/
theorem c3_counterexample :
    (handleUpdateGTD { dbCached := true }
        { action := .update, targetTodo := some "milk", confidence := 9 }
        { dbPresent := true, tasks := [{ id := 0, title := "buy milk" }],
          nextId := 1 }).result =
      { success := true, message := "Updated \"milk\"", taskId := some 0 } ∧
    (handleUpdateGTD { dbCached := true }
        { action := .update, targetTodo := some "milk", confidence := 9 }
        { dbPresent := true, tasks := [{ id := 0, title := "buy milk" }],
          nextId := 1 }).calls = [.query, .pageUpdate 0] := by
  decide

/-- C3 (amended): `handleUpdateGTD` requires only `targetTodo`: when it
is absent the handler responds "Which task do you want to update?" with
no store operation; but when `targetTodo` resolves to a task and
`newText` is missing, the handler does not ask for clarification — it
still issues a `pages.update` call (with no property change, so the
stored tasks are unchanged) and reports success. -/
theorem c3_update_missing_field (c : CtrlState) (intent : VoiceIntent)
    (st : Store) (target : String) (found : Task) (rest : List Task) :
    (intent.targetTodo = none →
      handleUpdateGTD c intent st =
        { result := { success := false,
                      message := "Which task do you want to update?" },
          ctrl := c, store := st, calls := [] }) ∧
    (jsStr? intent.targetTodo = some target → intent.newText = none →
      queryTitleContains st target = found :: rest →
      (handleUpdateGTD c intent st).result =
        { success := true, message := "Updated \"" ++ target ++ "\"",
          taskId := some found.id } ∧
      (handleUpdateGTD c intent st).store.tasks = st.tasks ∧
      StoreCall.pageUpdate found.id ∈ (handleUpdateGTD c intent st).calls) := by
  constructor
  · intro h
    simp [handleUpdateGTD, jsStr?, h]
  · intro ht hn hq
    have hq' : queryTitleContains (ensureGTDDatabase c st).2.1 target =
        found :: rest := by
      rw [queryTitleContains_congr (ensure_tasks c st), hq]
    have hjn : jsStr? intent.newText = none := by rw [hn]; rfl
    simp [handleUpdateGTD, ht, hjn, hq', ensure_tasks]

/-- C3 witness: both branches of the amended statement at concrete
inputs. -/
theorem c3_update_missing_field_witness :
    (handleUpdateGTD { dbCached := true }
        { action := .update, targetTodo := some "milk", confidence := 9 }
        { dbPresent := true, tasks := [{ id := 0, title := "buy milk" }],
          nextId := 1 }).result =
      { success := true, message := "Updated \"milk\"", taskId := some 0 } ∧
    (handleUpdateGTD { dbCached := true }
        { action := .update, targetTodo := some "milk", confidence := 9 }
        { dbPresent := true, tasks := [{ id := 0, title := "buy milk" }],
          nextId := 1 }).store.tasks = [{ id := 0, title := "buy milk" }] ∧
    StoreCall.pageUpdate 0 ∈
      (handleUpdateGTD { dbCached := true }
        { action := .update, targetTodo := some "milk", confidence := 9 }
        { dbPresent := true, tasks := [{ id := 0, title := "buy milk" }],
          nextId := 1 }).calls ∧
    handleUpdateGTD { dbCached := true }
        { action := .update, confidence := 9 }
        { dbPresent := true, tasks := [], nextId := 0 } =
      { result := { success := false,
                    message := "Which task do you want to update?" },
        ctrl := { dbCached := true },
        store := { dbPresent := true, tasks := [], nextId := 0 },
        calls := [] } := by
  have h2 := (c3_update_missing_field { dbCached := true }
    { action := .update, targetTodo := some "milk", confidence := 9 }
    { dbPresent := true, tasks := [{ id := 0, title := "buy milk" }],
      nextId := 1 } "milk" { id := 0, title := "buy milk" } []).2
    (by decide) rfl (by decide)
  have h1 := (c3_update_missing_field { dbCached := true }
    { action := .update, confidence := 9 }
    { dbPresent := true, tasks := [], nextId := 0 } "milk"
    { id := 0, title := "buy milk" } []).1 rfl
  exact ⟨h2.1, h2.2.1, h2.2.2, h1⟩

/-- C7, counterexample: with a single incomplete task "read chapter 5"
in scope, the out-of-range positional token "5" resolves to no task, but
the handler then falls through to the fuzzy text search, which matches
the digit 5 inside the title and completes the task — so a task IS
mutated for an out-of-range index. -/
theorem c7_counterexample :
    (5 : Int) > ((queryTodoToday chapterStore "2026-10-12").length : Int) ∧
    (handleCompleteGTD { dbCached := true }
        { action := .complete, targetTodo := some "5", confidence := 9 }
        "complete 5" "2026-10-12" chapterStore).result.success = true ∧
    (handleCompleteGTD { dbCached := true }
        { action := .complete, targetTodo := some "5", confidence := 9 }
        "complete 5" "2026-10-12" chapterStore).store.tasks.map
        Task.done = [true] := by
  decide

/-- C7 (amended): the positional-resolution view is sorted by priority
rank ascending; `first` resolves to its head, `last` to its final
element, and a numeric token larger than the number of tasks in scope
resolves to no task — but such an out-of-range token does not stop
`handleCompleteGTD`: the handler falls through to the fuzzy text search
with the token as free text, which can still mutate a matching task. -/
theorem c7_positional (st : Store) (today : String) (ts : List Task)
    (tok : String) (c : CtrlState) (intent : VoiceIntent) (orig : String)
    (hnum : jsIsNumeric tok = true) (hf : tok ≠ "first")
    (hl : tok ≠ "last") (hrange : (ts.length : Int) < jsNumber tok) :
    (queryTodoToday st today).Pairwise
      (fun a b => a.priority ≤ b.priority) ∧
    findByPosition "first" ts = ts.head? ∧
    findByPosition "last" ts = ts.getLast? ∧
    findByPosition tok ts = none ∧
    ((jsOrDefault intent.targetTodo orig = "first" ∨
      jsOrDefault intent.targetTodo orig = "last" ∨
      jsIsNumeric (jsOrDefault intent.targetTodo orig) = true) →
      findByPosition (jsOrDefault intent.targetTodo orig)
        (queryTodoToday (ensureGTDDatabase c st).2.1 today) = none →
      (handleCompleteGTD c intent orig today st).result =
        (completeByText (jsOrDefault intent.targetTodo orig)
          (ensureGTDDatabase c st).2.1).1) := by
  refine ⟨sortByRank_pairwise _, by simp [findByPosition], ?_, ?_, ?_⟩
  · rw [findByPosition, if_neg (by decide), if_pos rfl]
  · rw [findByPosition, if_neg hf, if_neg hl, if_pos hnum, if_neg (by omega)]
  · intro hguard hnone
    simp only [handleCompleteGTD]
    rw [if_pos hguard, hnone]

/-- C7 witness: the amended statement at the counterexample's store. -/
theorem c7_positional_witness :
    (queryTodoToday chapterStore "2026-10-12").Pairwise
      (fun a b => a.priority ≤ b.priority) ∧
    findByPosition "first" chapterStore.tasks =
      chapterStore.tasks.head? ∧
    findByPosition "last" chapterStore.tasks =
      chapterStore.tasks.getLast? ∧
    findByPosition "5" chapterStore.tasks = none ∧
    (handleCompleteGTD { dbCached := true }
        { action := .complete, targetTodo := some "5", confidence := 9 }
        "complete 5" "2026-10-12" chapterStore).result =
      (completeByText "5"
        (ensureGTDDatabase { dbCached := true } chapterStore).2.1).1 := by
  have h := c7_positional chapterStore "2026-10-12" chapterStore.tasks "5"
    { dbCached := true }
    { action := .complete, targetTodo := some "5", confidence := 9 }
    "complete 5" (by decide) (by decide) (by decide) (by decide)
  exact ⟨h.1, h.2.1, h.2.2.1, h.2.2.2.1,
    h.2.2.2.2 (by decide) (by decide)⟩

/-- C8 (confirmed): the fuzzy title lookup tries exact case-insensitive
equality, then substring containment in either direction, then
any-query-word containment, returning the first hit of the highest
matching tier (in query order) or none; and the round trip
create("buy milk") then findByFuzzyTitle("milk") returns the created
task. -/
theorem c8_fuzzy_lookup (q : String) (ts : List Task) (t : Task) :
    (ts.find? (exactPred q) = some t → findByFuzzyTitle q ts = some t) ∧
    (ts.find? (exactPred q) = none → ts.find? (substrPred q) = some t →
      findByFuzzyTitle q ts = some t) ∧
    (ts.find? (exactPred q) = none → ts.find? (substrPred q) = none →
      ts.find? (wordPred q) = some t → findByFuzzyTitle q ts = some t) ∧
    (ts.find? (exactPred q) = none → ts.find? (substrPred q) = none →
      ts.find? (wordPred q) = none → findByFuzzyTitle q ts = none) ∧
    findByFuzzyTitle "milk"
      (queryTodo (handleCreateGTD { dbCached := true }
        { action := .create, todoText := some "buy milk", confidence := 9 }
        "add buy milk" emptyStore).store) =
      some { id := 0, title := "buy milk", category := "Shopping" } := by
  refine ⟨?_, ?_, ?_, ?_, by decide⟩
  · intro h; simp [findByFuzzyTitle, h]
  · intro h1 h2; simp [findByFuzzyTitle, h1, h2]
  · intro h1 h2 h3; simp [findByFuzzyTitle, h1, h2, h3]
  · intro h1 h2 h3; simp [findByFuzzyTitle, h1, h2, h3]

/-- C8 witness: the tier order at a store where only the substring tier
matches, and at one where no tier matches. -/
theorem c8_fuzzy_lookup_witness :
    findByFuzzyTitle "milk" milkStore.tasks =
      some { id := 0, title := "buy milk" } ∧
    findByFuzzyTitle "xyzzy" milkStore.tasks = none := by
  have h1 := (c8_fuzzy_lookup "milk" milkStore.tasks
    { id := 0, title := "buy milk" }).2.1 (by decide) (by decide)
  have h2 := (c8_fuzzy_lookup "xyzzy" milkStore.tasks
    { id := 0, title := "buy milk" }).2.2.2.1 (by decide) (by decide)
    (by decide)
  exact ⟨h1, h2⟩

/-- C9 (confirmed): classification is total — `detectIntentFromText`
returns an intent for every input — and when the Tier-2 model call fails
and the reduced keyword fallback finds no keyword family, the resolved
intent is `unclear` with confidence 0.3, inside the claimed 0.1–0.3
range (confidences are in tenths). -/
theorem c9_classifier_never_throws (text : String)
    (llm : Except Unit GIntent)
    (h1 : (detectIntentFromText text).action = .unclear)
    (h2 : llm = .error ())
    (ha : includesL (lowerL text.data) "add".data = false)
    (hb : includesL (lowerL text.data) "create".data = false)
    (hc : includesL (lowerL text.data) "complete".data = false)
    (hd : includesL (lowerL text.data) "done".data = false)
    (he : includesL (lowerL text.data) "check".data = false)
    (hf : includesL (lowerL text.data) "update".data = false)
    (hg : includesL (lowerL text.data) "change".data = false)
    (hh : includesL (lowerL text.data) "delete".data = false)
    (hi : includesL (lowerL text.data) "remove".data = false)
    (hj : includesL (lowerL text.data) "show".data = false)
    (hk : includesL (lowerL text.data) "list".data = false) :
    (∃ i, detectIntentFromText text = i) ∧
    (resolveIntent text llm).1.action = .unclear ∧
    (resolveIntent text llm).1.confidence = 3 ∧
    1 ≤ (resolveIntent text llm).1.confidence ∧
    (resolveIntent text llm).1.confidence ≤ 3 := by
  subst h2
  refine ⟨⟨_, rfl⟩, ?_⟩
  simp [resolveIntent, h1, parseVoiceCommand, parseVoiceFallback,
    ha, hb, hc, hd, he, hf, hg, hh, hi, hj, hk, mergeIntent]

/-- C9 witness: the full failure chain on the input `"zq"`. -/
theorem c9_classifier_never_throws_witness :
    (∃ i, detectIntentFromText "zq" = i) ∧
    (resolveIntent "zq" (.error ())).1.action = .unclear ∧
    (resolveIntent "zq" (.error ())).1.confidence = 3 ∧
    1 ≤ (resolveIntent "zq" (.error ())).1.confidence ∧
    (resolveIntent "zq" (.error ())).1.confidence ≤ 3 :=
  c9_classifier_never_throws "zq" (.error ()) (by decide) rfl (by decide)
    (by decide) (by decide) (by decide) (by decide) (by decide) (by decide)
    (by decide) (by decide) (by decide) (by decide)

/-- C10 (confirmed): the speech-synthesis oracle influences nothing but
the `audioResponse` field — the command result, success flag, store
state and store calls are identical for any two synthesis outcomes — and
when synthesis fails the audio field is absent or the empty string, never
a command failure. -/
theorem c10_synthesis_failure_harmless (c : CtrlState)
    (text? transcript : Option String) (llm : Except Unit GIntent)
    (returnAudio : Bool) (today : String) (st : Store)
    (s₁ s₂ : Except Unit String) :
    (processVoiceCommand c text? transcript llm returnAudio s₁ today
        st).result =
      (processVoiceCommand c text? transcript llm returnAudio s₂ today
        st).result ∧
    (processVoiceCommand c text? transcript llm returnAudio s₁ today
        st).ok =
      (processVoiceCommand c text? transcript llm returnAudio s₂ today
        st).ok ∧
    (processVoiceCommand c text? transcript llm returnAudio s₁ today
        st).store =
      (processVoiceCommand c text? transcript llm returnAudio s₂ today
        st).store ∧
    (processVoiceCommand c text? transcript llm returnAudio s₁ today
        st).calls =
      (processVoiceCommand c text? transcript llm returnAudio s₂ today
        st).calls ∧
    ((processVoiceCommand c text? transcript llm returnAudio (.error ())
        today st).audioResponse = none ∨
      (processVoiceCommand c text? transcript llm returnAudio (.error ())
        today st).audioResponse = some "") := by
  unfold processVoiceCommand
  cases hct : resolveCommandText text? transcript with
  | none => simp
  | some commandText =>
    refine ⟨rfl, rfl, rfl, rfl, ?_⟩
    by_cases hra : returnAudio ∧
        (dispatchIntent (ensureGTDDatabase c st).1
          (resolveIntent commandText llm).1 commandText today
          (ensureGTDDatabase c st).2.1).result.message ≠ ""
    · right
      simp [hra, generateAudioResponse]
    · left
      simp [hra]

/-- C4, counterexample: the input "add done task" begins with the
creation verb `add` followed by text, yet Tier 1 classifies it as a
`complete` intent (the completion keyword check runs before the creation
check and "done" is a completion keyword), with no target extracted. -/
theorem c4_counterexample :
    (detectIntentFromText "add done task").action ≠ VAction.create ∧
    detectIntentFromText "add done task" =
      { action := .complete, confidence := 9 } := by
  decide

/-- C4 (amended): for an input of the form `verb ++ " " ++ rest` whose
verb lowercases to add/create/new/make and whose remainder starts with a
non-space character and contains no line terminator, Tier 1 returns
`create` with `todoText` equal to the remainder trimmed and confidence
0.9, deterministically — PROVIDED the input contains none of the
completion, deletion, update (including `" to "`) or list trigger
substrings checked by the earlier branches (otherwise those branches
preempt creation, as the counterexample shows). -/
theorem c4_create_rule (v : List Char) (r : Char) (rs : List Char)
    (lt : List Char)
    (hv : lowerL v = "add".data ∨ lowerL v = "create".data ∨
          lowerL v = "new".data ∨ lowerL v = "make".data)
    (hsp : isJsSpace r = false) (hterm : (r :: rs).all nonTerm = true)
    (hlt : lt = trimL (lowerL (v ++ ' ' :: r :: rs)))
    (hcomp : (includesL lt "complete".data || includesL lt "finish".data ||
      includesL lt "done".data || includesL lt "mark as done".data ||
      includesL lt "check off".data || includesL lt "tick off".data) = false)
    (hdel : (includesL lt "delete".data || includesL lt "remove".data ||
      includesL lt "cancel".data || includesL lt "drop".data) = false)
    (hupd : (includesL lt "update".data || includesL lt "change".data ||
      includesL lt "modify".data || includesL lt "edit".data ||
      includesL lt " to ".data) = false)
    (hlist : (includesL lt "show".data || includesL lt "list".data ||
      includesL lt "what".data || includesL lt "display".data ||
      includesL lt "my tasks".data || includesL lt "my todos".data ||
      includesL lt "pending".data ||
      lt = "tasks".data || lt = "todos".data) = false)
    (hstart : ("add".data.isPrefixOf lt || "create".data.isPrefixOf lt ||
      "new".data.isPrefixOf lt || "make".data.isPrefixOf lt) = true) :
    detectIntentFromText ⟨v ++ ' ' :: r :: rs⟩ =
      { action := .create, todoText := some ⟨trimL (r :: rs)⟩,
        confidence := 9 } := by
  rcases hv with hv | hv | hv | hv
  · cases v with
    | nil => exact absurd hv (by decide)
    | cons x v' =>
      subst hlt
      have hW : lowerL ((x :: v') ++ ' ' :: r :: rs) =
          "add ".data ++ lowerL (r :: rs) := by
        have hsplit : lowerL ((x :: v') ++ ' ' :: r :: rs) =
            lowerL (x :: v') ++ lowerL (' ' :: r :: rs) := by
          simp [lowerL, List.map_append]
        rw [hsplit, hv]
        rfl
      have hkfail : ∀ pv : List Char,
          ¬ pv <+: "add ".data → ¬ "add ".data <+: pv →
          kwAt pv ((x :: v') ++ ' ' :: r :: rs) = none := by
        intro pv hp1 hp2
        apply kwAt_eq_none
        rw [hW]
        exact not_prefix_append_of hp1 hp2
      have hpt : pastTenseSearch ((x :: v') ++ ' ' :: r :: rs) = none :=
        pastTenseSearch_eq_none
        (hkfail _ (by decide) (by decide))
        (hkfail _ (by decide) (by decide))
        (hkfail _ (by decide) (by decide))
        (hkfail _ (by decide) (by decide))
        (hkfail _ (by decide) (by decide))
        (hkfail _ (by decide) (by decide))
        (hkfail _ (by decide) (by decide))
        (hkfail _ (by decide) (by decide))
        (hkfail _ (by decide) (by decide))
        (hkfail _ (by decide) (by decide))
        (hkfail _ (by decide) (by decide))
        (hkfail _ (by decide) (by decide))
      have hk : kwAt "add".data (x :: (v' ++ ' ' :: r :: rs)) =
          some (' ' :: r :: rs) := by
        have h := kwAt_append (v := x :: v') (s := ' ' :: r :: rs) hv
        simpa [List.cons_append] using h
      have hscan : scanAlts ["add".data, "create".data, "new".data,
          "make".data] spDotPlus ((x :: v') ++ ' ' :: r :: rs) =
          some (r :: rs) := by
        simp only [List.cons_append, scanAlts]
        simp [List.findSome?_cons, hk, spDotPlus_space hsp hterm]
      show detectIntentL ((x :: v') ++ ' ' :: r :: rs) = _
      unfold detectIntentL
      simp only [List.cons_append] at hcomp hdel hupd hlist hstart hpt hscan ⊢
      simp [hcomp, hdel, hupd, hlist, hpt, hstart, hscan]
  · cases v with
    | nil => exact absurd hv (by decide)
    | cons x v' =>
      subst hlt
      have hW : lowerL ((x :: v') ++ ' ' :: r :: rs) =
          "create ".data ++ lowerL (r :: rs) := by
        have hsplit : lowerL ((x :: v') ++ ' ' :: r :: rs) =
            lowerL (x :: v') ++ lowerL (' ' :: r :: rs) := by
          simp [lowerL, List.map_append]
        rw [hsplit, hv]
        rfl
      have hkfail : ∀ pv : List Char,
          ¬ pv <+: "create ".data → ¬ "create ".data <+: pv →
          kwAt pv ((x :: v') ++ ' ' :: r :: rs) = none := by
        intro pv hp1 hp2
        apply kwAt_eq_none
        rw [hW]
        exact not_prefix_append_of hp1 hp2
      have hpt : pastTenseSearch ((x :: v') ++ ' ' :: r :: rs) = none :=
        pastTenseSearch_eq_none
        (hkfail _ (by decide) (by decide))
        (hkfail _ (by decide) (by decide))
        (hkfail _ (by decide) (by decide))
        (hkfail _ (by decide) (by decide))
        (hkfail _ (by decide) (by decide))
        (hkfail _ (by decide) (by decide))
        (hkfail _ (by decide) (by decide))
        (hkfail _ (by decide) (by decide))
        (hkfail _ (by decide) (by decide))
        (hkfail _ (by decide) (by decide))
        (hkfail _ (by decide) (by decide))
        (hkfail _ (by decide) (by decide))
      have hk : kwAt "create".data (x :: (v' ++ ' ' :: r :: rs)) =
          some (' ' :: r :: rs) := by
        have h := kwAt_append (v := x :: v') (s := ' ' :: r :: rs) hv
        simpa [List.cons_append] using h
      have hf0 : kwAt "add".data (x :: (v' ++ ' ' :: r :: rs)) = none := by
        have h := hkfail "add".data (by decide) (by decide)
        simpa [List.cons_append] using h
      have hscan : scanAlts ["add".data, "create".data, "new".data,
          "make".data] spDotPlus ((x :: v') ++ ' ' :: r :: rs) =
          some (r :: rs) := by
        simp only [List.cons_append, scanAlts]
        simp [List.findSome?_cons, hf0, hk, spDotPlus_space hsp hterm]
      show detectIntentL ((x :: v') ++ ' ' :: r :: rs) = _
      unfold detectIntentL
      simp only [List.cons_append] at hcomp hdel hupd hlist hstart hpt hscan ⊢
      simp [hcomp, hdel, hupd, hlist, hpt, hstart, hscan]
  · cases v with
    | nil => exact absurd hv (by decide)
    | cons x v' =>
      subst hlt
      have hW : lowerL ((x :: v') ++ ' ' :: r :: rs) =
          "new ".data ++ lowerL (r :: rs) := by
        have hsplit : lowerL ((x :: v') ++ ' ' :: r :: rs) =
            lowerL (x :: v') ++ lowerL (' ' :: r :: rs) := by
          simp [lowerL, List.map_append]
        rw [hsplit, hv]
        rfl
      have hkfail : ∀ pv : List Char,
          ¬ pv <+: "new ".data → ¬ "new ".data <+: pv →
          kwAt pv ((x :: v') ++ ' ' :: r :: rs) = none := by
        intro pv hp1 hp2
        apply kwAt_eq_none
        rw [hW]
        exact not_prefix_append_of hp1 hp2
      have hpt : pastTenseSearch ((x :: v') ++ ' ' :: r :: rs) = none :=
        pastTenseSearch_eq_none
        (hkfail _ (by decide) (by decide))
        (hkfail _ (by decide) (by decide))
        (hkfail _ (by decide) (by decide))
        (hkfail _ (by decide) (by decide))
        (hkfail _ (by decide) (by decide))
        (hkfail _ (by decide) (by decide))
        (hkfail _ (by decide) (by decide))
        (hkfail _ (by decide) (by decide))
        (hkfail _ (by decide) (by decide))
        (hkfail _ (by decide) (by decide))
        (hkfail _ (by decide) (by decide))
        (hkfail _ (by decide) (by decide))
      have hk : kwAt "new".data (x :: (v' ++ ' ' :: r :: rs)) =
          some (' ' :: r :: rs) := by
        have h := kwAt_append (v := x :: v') (s := ' ' :: r :: rs) hv
        simpa [List.cons_append] using h
      have hf0 : kwAt "add".data (x :: (v' ++ ' ' :: r :: rs)) = none := by
        have h := hkfail "add".data (by decide) (by decide)
        simpa [List.cons_append] using h
      have hf1 : kwAt "create".data (x :: (v' ++ ' ' :: r :: rs)) = none := by
        have h := hkfail "create".data (by decide) (by decide)
        simpa [List.cons_append] using h
      have hscan : scanAlts ["add".data, "create".data, "new".data,
          "make".data] spDotPlus ((x :: v') ++ ' ' :: r :: rs) =
          some (r :: rs) := by
        simp only [List.cons_append, scanAlts]
        simp [List.findSome?_cons, hf0, hf1, hk, spDotPlus_space hsp hterm]
      show detectIntentL ((x :: v') ++ ' ' :: r :: rs) = _
      unfold detectIntentL
      simp only [List.cons_append] at hcomp hdel hupd hlist hstart hpt hscan ⊢
      simp [hcomp, hdel, hupd, hlist, hpt, hstart, hscan]
  · cases v with
    | nil => exact absurd hv (by decide)
    | cons x v' =>
      subst hlt
      have hW : lowerL ((x :: v') ++ ' ' :: r :: rs) =
          "make ".data ++ lowerL (r :: rs) := by
        have hsplit : lowerL ((x :: v') ++ ' ' :: r :: rs) =
            lowerL (x :: v') ++ lowerL (' ' :: r :: rs) := by
          simp [lowerL, List.map_append]
        rw [hsplit, hv]
        rfl
      have hkfail : ∀ pv : List Char,
          ¬ pv <+: "make ".data → ¬ "make ".data <+: pv →
          kwAt pv ((x :: v') ++ ' ' :: r :: rs) = none := by
        intro pv hp1 hp2
        apply kwAt_eq_none
        rw [hW]
        exact not_prefix_append_of hp1 hp2
      have hpt : pastTenseSearch ((x :: v') ++ ' ' :: r :: rs) = none :=
        pastTenseSearch_eq_none
        (hkfail _ (by decide) (by decide))
        (hkfail _ (by decide) (by decide))
        (hkfail _ (by decide) (by decide))
        (hkfail _ (by decide) (by decide))
        (hkfail _ (by decide) (by decide))
        (hkfail _ (by decide) (by decide))
        (hkfail _ (by decide) (by decide))
        (hkfail _ (by decide) (by decide))
        (hkfail _ (by decide) (by decide))
        (hkfail _ (by decide) (by decide))
        (hkfail _ (by decide) (by decide))
        (hkfail _ (by decide) (by decide))
      have hk : kwAt "make".data (x :: (v' ++ ' ' :: r :: rs)) =
          some (' ' :: r :: rs) := by
        have h := kwAt_append (v := x :: v') (s := ' ' :: r :: rs) hv
        simpa [List.cons_append] using h
      have hf0 : kwAt "add".data (x :: (v' ++ ' ' :: r :: rs)) = none := by
        have h := hkfail "add".data (by decide) (by decide)
        simpa [List.cons_append] using h
      have hf1 : kwAt "create".data (x :: (v' ++ ' ' :: r :: rs)) = none := by
        have h := hkfail "create".data (by decide) (by decide)
        simpa [List.cons_append] using h
      have hf2 : kwAt "new".data (x :: (v' ++ ' ' :: r :: rs)) = none := by
        have h := hkfail "new".data (by decide) (by decide)
        simpa [List.cons_append] using h
      have hscan : scanAlts ["add".data, "create".data, "new".data,
          "make".data] spDotPlus ((x :: v') ++ ' ' :: r :: rs) =
          some (r :: rs) := by
        simp only [List.cons_append, scanAlts]
        simp [List.findSome?_cons, hf0, hf1, hf2, hk, spDotPlus_space hsp hterm]
      show detectIntentL ((x :: v') ++ ' ' :: r :: rs) = _
      unfold detectIntentL
      simp only [List.cons_append] at hcomp hdel hupd hlist hstart hpt hscan ⊢
      simp [hcomp, hdel, hupd, hlist, hpt, hstart, hscan]

/-- C4 witness: the amended creation rule at the concrete input
"Add buy milk" (case-insensitive verb). -/
theorem c4_create_rule_witness :
    detectIntentFromText ⟨"Add".data ++ ' ' :: 'b' :: "uy milk".data⟩ =
      { action := .create, todoText := some ⟨trimL ('b' :: "uy milk".data)⟩,
        confidence := 9 } :=
  c4_create_rule "Add".data 'b' "uy milk".data
    (trimL (lowerL ("Add".data ++ ' ' :: 'b' :: "uy milk".data)))
    (by decide) (by decide) (by decide) rfl (by decide) (by decide)
    (by decide) (by decide) (by decide)

/-- C5, counterexample: "finished homework" is a past-tense completion
phrasing, but because "finished" contains the keyword "finish" it enters
the keyword completion branch, whose `/finish\s+(.+)/` template does not
match "finished …" — so no target is extracted (and the confidence is
0.9, not 0.8). -/
theorem c5_counterexample :
    detectIntentFromText "finished homework" =
      { action := .complete, confidence := 9 } ∧
    (detectIntentFromText "finished homework").targetTodo ≠
      some "homework" := by
  decide

/-- C5 (amended): for `bought X` and `sent X` (with `X` starting with a
non-space character, free of line terminators and of the other branches'
trigger substrings) Tier 1 returns `complete` with `targetTodo = X`
trimmed and confidence 0.8, as claimed; but `finished X` instead hits
the keyword completion branch (since "finished" contains "finish"), and
when none of the completion templates nor ordinal words occur in the
input it returns `complete` with confidence 0.9 and NO `targetTodo`. -/
theorem c5_past_tense (r : Char) (rs : List Char)
    (hsp : isJsSpace r = false) (hterm : (r :: rs).all nonTerm = true) :
    (∀ lt, lt = trimL (lowerL ("bought ".data ++ r :: rs)) →
      (includesL lt "complete".data || includesL lt "finish".data ||
        includesL lt "done".data || includesL lt "mark as done".data ||
        includesL lt "check off".data || includesL lt "tick off".data) = false →
      (includesL lt "delete".data || includesL lt "remove".data ||
        includesL lt "cancel".data || includesL lt "drop".data) = false →
      (includesL lt "update".data || includesL lt "change".data ||
        includesL lt "modify".data || includesL lt "edit".data ||
        includesL lt " to ".data) = false →
      (includesL lt "show".data || includesL lt "list".data ||
        includesL lt "what".data || includesL lt "display".data ||
        includesL lt "my tasks".data || includesL lt "my todos".data ||
        includesL lt "pending".data ||
        lt = "tasks".data || lt = "todos".data) = false →
      detectIntentFromText ⟨"bought ".data ++ r :: rs⟩ =
        { action := .complete, targetTodo := some ⟨trimL (r :: rs)⟩,
          confidence := 8 }) ∧
    (∀ lt, lt = trimL (lowerL ("sent ".data ++ r :: rs)) →
      (includesL lt "complete".data || includesL lt "finish".data ||
        includesL lt "done".data || includesL lt "mark as done".data ||
        includesL lt "check off".data || includesL lt "tick off".data) = false →
      (includesL lt "delete".data || includesL lt "remove".data ||
        includesL lt "cancel".data || includesL lt "drop".data) = false →
      (includesL lt "update".data || includesL lt "change".data ||
        includesL lt "modify".data || includesL lt "edit".data ||
        includesL lt " to ".data) = false →
      (includesL lt "show".data || includesL lt "list".data ||
        includesL lt "what".data || includesL lt "display".data ||
        includesL lt "my tasks".data || includesL lt "my todos".data ||
        includesL lt "pending".data ||
        lt = "tasks".data || lt = "todos".data) = false →
      detectIntentFromText ⟨"sent ".data ++ r :: rs⟩ =
        { action := .complete, targetTodo := some ⟨trimL (r :: rs)⟩,
          confidence := 8 }) ∧
    (∀ lt, lt = trimL (lowerL ("finished ".data ++ r :: rs)) →
      (includesL lt "complete".data || includesL lt "finish".data ||
        includesL lt "done".data || includesL lt "mark as done".data ||
        includesL lt "check off".data || includesL lt "tick off".data) = true →
      includesL lt "first".data = false →
      includesL lt "last".data = false →
      includesL lt "second".data = false →
      includesL lt "third".data = false →
      includesL (lowerL (r :: rs)) "complete".data = false →
      includesL (lowerL (r :: rs)) "finish".data = false →
      includesL (lowerL (r :: rs)) "done".data = false →
      includesL (lowerL (r :: rs)) "mark".data = false →
      includesL (lowerL (r :: rs)) "check".data = false →
      detectIntentFromText ⟨"finished ".data ++ r :: rs⟩ =
        { action := .complete, confidence := 9 }) := by
  refine ⟨?_, ?_, ?_⟩
  · intro lt hlt hcomp hdel hupd hlist
    have hlt2 : trimL (lowerL ('b' :: 'o' :: 'u' :: 'g' :: 'h' :: 't' :: ' ' :: r :: rs)) = lt := hlt.symm
    have hk : kwAt ['b', 'o', 'u', 'g', 'h', 't'] ('b' :: 'o' :: 'u' :: 'g' :: 'h' :: 't' :: ' ' :: r :: rs) =
        some (' ' :: r :: rs) := rfl
    have hpt : pastTenseSearch ('b' :: 'o' :: 'u' :: 'g' :: 'h' :: 't' :: ' ' :: r :: rs) = some (r :: rs) := by
      simp [pastTenseSearch, List.findSome?_cons, hk,
        spDotPlusEnd_space hsp hterm]
    show detectIntentL ('b' :: 'o' :: 'u' :: 'g' :: 'h' :: 't' :: ' ' :: r :: rs) = _
    simp only [detectIntentL]
    rw [hlt2]
    simp [hcomp, hdel, hupd, hlist, hpt]
  · intro lt hlt hcomp hdel hupd hlist
    have hlt2 : trimL (lowerL ('s' :: 'e' :: 'n' :: 't' :: ' ' :: r :: rs)) = lt := hlt.symm
    have hk : kwAt ['s', 'e', 'n', 't'] ('s' :: 'e' :: 'n' :: 't' :: ' ' :: r :: rs) =
        some (' ' :: r :: rs) := rfl
    have hn0 : kwAt ['b', 'o', 'u', 'g', 'h', 't'] ('s' :: 'e' :: 'n' :: 't' :: ' ' :: r :: rs) = none := rfl
    have hn1 : kwAt ['p', 'u', 'r', 'c', 'h', 'a', 's', 'e', 'd'] ('s' :: 'e' :: 'n' :: 't' :: ' ' :: r :: rs) = none := rfl
    have hn2 : kwAt ['g', 'o', 't'] ('s' :: 'e' :: 'n' :: 't' :: ' ' :: r :: rs) = none := rfl
    have hn3 : kwAt ['c', 'h', 'e', 'c', 'k', 'e', 'd'] ('s' :: 'e' :: 'n' :: 't' :: ' ' :: r :: rs) = none := rfl
    have hn4 : kwAt ['r', 'e', 'v', 'i', 'e', 'w', 'e', 'd'] ('s' :: 'e' :: 'n' :: 't' :: ' ' :: r :: rs) = none := rfl
    have hn5 : kwAt ['r', 'e', 'a', 'd'] ('s' :: 'e' :: 'n' :: 't' :: ' ' :: r :: rs) = none := rfl
    have hn6 : kwAt ['f', 'i', 'n', 'i', 's', 'h', 'e', 'd'] ('s' :: 'e' :: 'n' :: 't' :: ' ' :: r :: rs) = none := rfl
    have hn7 : kwAt ['c', 'o', 'm', 'p', 'l', 'e', 't', 'e', 'd'] ('s' :: 'e' :: 'n' :: 't' :: ' ' :: r :: rs) = none := rfl
    have hn8 : kwAt ['d', 'i', 'd'] ('s' :: 'e' :: 'n' :: 't' :: ' ' :: r :: rs) = none := rfl
    have hpt : pastTenseSearch ('s' :: 'e' :: 'n' :: 't' :: ' ' :: r :: rs) = some (r :: rs) := by
      simp [pastTenseSearch, List.findSome?_cons, hn0, hn1, hn2, hn3, hn4, hn5, hn6, hn7, hn8, hk,
        spDotPlusEnd_space hsp hterm]
    show detectIntentL ('s' :: 'e' :: 'n' :: 't' :: ' ' :: r :: rs) = _
    simp only [detectIntentL]
    rw [hlt2]
    simp [hcomp, hdel, hupd, hlist, hpt]
  · intro lt hlt hbr hfi hla hse hth hx1 hx2 hx3 hx4 hx5
    have hlt2 : trimL (lowerL ('f' :: 'i' :: 'n' :: 'i' :: 's' :: 'h' :: 'e' :: 'd' :: ' ' :: r :: rs)) = lt := hlt.symm
    have s1 : scanKw "complete".data spDotPlus ('f' :: 'i' :: 'n' :: 'i' :: 's' :: 'h' :: 'e' :: 'd' :: ' ' :: r :: rs) = none :=
      @scanKw_eq_none_append _ "complete".data "finished ".data (r :: rs)
        spDotPlus (by decide) hx1 (by decide)
    have s2 : scanKw "finish".data spDotPlus ('f' :: 'i' :: 'n' :: 'i' :: 's' :: 'h' :: 'e' :: 'd' :: ' ' :: r :: rs) = none := by
      show scanAlts ["finish".data] spDotPlus ('f' :: ("inished ".data ++ r :: rs)) = none
      simp only [scanAlts]
      have hk : kwAt "finish".data ('f' :: ("inished ".data ++ r :: rs)) =
          some ("ed ".data ++ r :: rs) := rfl
      have hsd : spDotPlus ("ed ".data ++ r :: rs) = none := rfl
      simp only [List.findSome?_cons, List.findSome?_nil, hk,
        Option.some_bind, hsd]
      exact @scanKw_eq_none_append _ "finish".data "inished ".data (r :: rs)
        spDotPlus (by decide) hx2 (by decide)
    have s3 : scanKw "done".data
        (fun t => (spKwAt "with".data t).bind spDotPlus) ('f' :: 'i' :: 'n' :: 'i' :: 's' :: 'h' :: 'e' :: 'd' :: ' ' :: r :: rs) =
        none :=
      @scanKw_eq_none_append _ "done".data "finished ".data (r :: rs)
        (fun t => (spKwAt "with".data t).bind spDotPlus) (by decide) hx3
        (by decide)
    have s4 : scanKw "mark".data (spThenCont greedyAsDone) ('f' :: 'i' :: 'n' :: 'i' :: 's' :: 'h' :: 'e' :: 'd' :: ' ' :: r :: rs) =
        none :=
      @scanKw_eq_none_append _ "mark".data "finished ".data (r :: rs)
        (spThenCont greedyAsDone) (by decide) hx4 (by decide)
    have s5 : scanKw "check".data
        (fun t => (spKwAt "off".data t).bind spDotPlus) ('f' :: 'i' :: 'n' :: 'i' :: 's' :: 'h' :: 'e' :: 'd' :: ' ' :: r :: rs) =
        none :=
      @scanKw_eq_none_append _ "check".data "finished ".data (r :: rs)
        (fun t => (spKwAt "off".data t).bind spDotPlus) (by decide) hx5
        (by decide)
    have hsearch : completeTargetSearch ('f' :: 'i' :: 'n' :: 'i' :: 's' :: 'h' :: 'e' :: 'd' :: ' ' :: r :: rs) = none := by
      simp [completeTargetSearch, s1, s2, s3, s4, s5]
    show detectIntentL ('f' :: 'i' :: 'n' :: 'i' :: 's' :: 'h' :: 'e' :: 'd' :: ' ' :: r :: rs) = _
    simp only [detectIntentL]
    rw [hlt2]
    simp [hbr, hfi, hla, hse, hth, hsearch]

/-- C6, counterexample: the deletion branch does not translate the
ordinal word "second" into the positional token "2" — only `first` and
`last` are checked there — so the regex capture "the second task" becomes
the free-text target instead. -/
theorem c6_counterexample :
    detectIntentFromText "delete the second task" =
      { action := .delete, targetTodo := some "the second task",
        confidence := 9 } ∧
    (detectIntentFromText "delete the second task").targetTodo ≠
      some "2" := by
  decide

/-- C6 (amended): in the deletion branch only the ordinal words `first`
and `last` become positional targets (`second`/`third` are NOT mapped to
"2"/"3", unlike the completion branch — see the counterexample);
otherwise the first capturing group of the deletion templates
(`delete|remove|cancel|drop` + `\s+(.+)`, scanned in that order) becomes
the trimmed free-text target; confidence is 0.9 throughout. -/
theorem c6_delete_rule :
    (∀ (text : String) lt, lt = trimL (lowerL text.data) →
      (includesL lt "complete".data || includesL lt "finish".data ||
        includesL lt "done".data || includesL lt "mark as done".data ||
        includesL lt "check off".data || includesL lt "tick off".data) = false →
      (includesL lt "delete".data || includesL lt "remove".data ||
        includesL lt "cancel".data || includesL lt "drop".data) = true →
      includesL lt "first".data = true →
      detectIntentFromText text =
        { action := .delete, targetTodo := some "first", confidence := 9 }) ∧
    (∀ (text : String) lt, lt = trimL (lowerL text.data) →
      (includesL lt "complete".data || includesL lt "finish".data ||
        includesL lt "done".data || includesL lt "mark as done".data ||
        includesL lt "check off".data || includesL lt "tick off".data) = false →
      (includesL lt "delete".data || includesL lt "remove".data ||
        includesL lt "cancel".data || includesL lt "drop".data) = true →
      includesL lt "first".data = false →
      includesL lt "last".data = true →
      detectIntentFromText text =
        { action := .delete, targetTodo := some "last", confidence := 9 }) ∧
    (∀ (v : List Char) (r : Char) (rs : List Char) lt,
      (lowerL v = "delete".data ∨ lowerL v = "remove".data ∨
        lowerL v = "cancel".data ∨ lowerL v = "drop".data) →
      isJsSpace r = false → (r :: rs).all nonTerm = true →
      lt = trimL (lowerL (v ++ ' ' :: r :: rs)) →
      (includesL lt "complete".data || includesL lt "finish".data ||
        includesL lt "done".data || includesL lt "mark as done".data ||
        includesL lt "check off".data || includesL lt "tick off".data) = false →
      (includesL lt "delete".data || includesL lt "remove".data ||
        includesL lt "cancel".data || includesL lt "drop".data) = true →
      includesL lt "first".data = false →
      includesL lt "last".data = false →
      includesL (lowerL (' ' :: r :: rs)) "delete".data = false →
      includesL (lowerL (' ' :: r :: rs)) "remove".data = false →
      includesL (lowerL (' ' :: r :: rs)) "cancel".data = false →
      detectIntentFromText ⟨v ++ ' ' :: r :: rs⟩ =
        { action := .delete, targetTodo := some ⟨trimL (r :: rs)⟩,
          confidence := 9 }) := by
  refine ⟨?_, ?_, ?_⟩
  · intro text lt hlt hcomp hdelT hfi
    have hlt2 : trimL (lowerL text.data) = lt := hlt.symm
    show detectIntentL text.data = _
    simp only [detectIntentL]
    rw [hlt2]
    simp [hcomp, hdelT, hfi]
  · intro text lt hlt hcomp hdelT hfi hla
    have hlt2 : trimL (lowerL text.data) = lt := hlt.symm
    show detectIntentL text.data = _
    simp only [detectIntentL]
    rw [hlt2]
    simp [hcomp, hdelT, hfi, hla]
  · intro v r rs lt hv hsp hterm hlt hcomp hdelT hfi hla hx1 hx2 hx3
    rcases hv with hv | hv | hv | hv
    · cases v with
      | nil => exact absurd hv (by decide)
      | cons x v' =>
        have hlt2 : trimL (lowerL (x :: (v' ++ ' ' :: r :: rs))) = lt :=
          hlt.symm
        have tpos : scanKw "delete".data spDotPlus
            (x :: (v' ++ ' ' :: r :: rs)) = some (r :: rs) := by
          unfold scanKw
          simp only [scanAlts]
          have hk : kwAt "delete".data (x :: (v' ++ ' ' :: r :: rs)) =
              some (' ' :: r :: rs) := by
            have h := kwAt_append (v := x :: v') (s := ' ' :: r :: rs) hv
            simpa [List.cons_append] using h
          simp [List.findSome?_cons, hk, spDotPlus_space hsp hterm]
        have hsearch : deleteTargetSearch
            (x :: (v' ++ ' ' :: r :: rs)) = some (r :: rs) := by
          simp [deleteTargetSearch, tpos]
        have htg : ¬((⟨trimL (r :: rs)⟩ : String) = "") := by
          intro h
          exact trimL_ne_nil hsp (congrArg String.data h)
        show detectIntentL (x :: (v' ++ ' ' :: r :: rs)) = _
        simp only [detectIntentL]
        rw [hlt2]
        simp [hcomp, hdelT, hfi, hla, hsearch, htg]
    · cases v with
      | nil => exact absurd hv (by decide)
      | cons x v' =>
        have hlt2 : trimL (lowerL (x :: (v' ++ ' ' :: r :: rs))) = lt :=
          hlt.symm
        have t0 : scanKw "delete".data spDotPlus
            (x :: (v' ++ ' ' :: r :: rs)) = none := by
          have h1 : ¬ "delete".data <:+: lowerL (x :: v') := by
            rw [hv]; decide
          have hj : junctionFree (lowerL (x :: v')) "delete".data = true := by
            rw [hv]; decide
          exact @scanKw_eq_none_append _ "delete".data (x :: v')
            (' ' :: r :: rs) spDotPlus h1 hx1 hj
        have tpos : scanKw "remove".data spDotPlus
            (x :: (v' ++ ' ' :: r :: rs)) = some (r :: rs) := by
          unfold scanKw
          simp only [scanAlts]
          have hk : kwAt "remove".data (x :: (v' ++ ' ' :: r :: rs)) =
              some (' ' :: r :: rs) := by
            have h := kwAt_append (v := x :: v') (s := ' ' :: r :: rs) hv
            simpa [List.cons_append] using h
          simp [List.findSome?_cons, hk, spDotPlus_space hsp hterm]
        have hsearch : deleteTargetSearch
            (x :: (v' ++ ' ' :: r :: rs)) = some (r :: rs) := by
          simp [deleteTargetSearch, t0, tpos]
        have htg : ¬((⟨trimL (r :: rs)⟩ : String) = "") := by
          intro h
          exact trimL_ne_nil hsp (congrArg String.data h)
        show detectIntentL (x :: (v' ++ ' ' :: r :: rs)) = _
        simp only [detectIntentL]
        rw [hlt2]
        simp [hcomp, hdelT, hfi, hla, hsearch, htg]
    · cases v with
      | nil => exact absurd hv (by decide)
      | cons x v' =>
        have hlt2 : trimL (lowerL (x :: (v' ++ ' ' :: r :: rs))) = lt :=
          hlt.symm
        have t0 : scanKw "delete".data spDotPlus
            (x :: (v' ++ ' ' :: r :: rs)) = none := by
          have h1 : ¬ "delete".data <:+: lowerL (x :: v') := by
            rw [hv]; decide
          have hj : junctionFree (lowerL (x :: v')) "delete".data = true := by
            rw [hv]; decide
          exact @scanKw_eq_none_append _ "delete".data (x :: v')
            (' ' :: r :: rs) spDotPlus h1 hx1 hj
        have t1 : scanKw "remove".data spDotPlus
            (x :: (v' ++ ' ' :: r :: rs)) = none := by
          have h1 : ¬ "remove".data <:+: lowerL (x :: v') := by
            rw [hv]; decide
          have hj : junctionFree (lowerL (x :: v')) "remove".data = true := by
            rw [hv]; decide
          exact @scanKw_eq_none_append _ "remove".data (x :: v')
            (' ' :: r :: rs) spDotPlus h1 hx2 hj
        have tpos : scanKw "cancel".data spDotPlus
            (x :: (v' ++ ' ' :: r :: rs)) = some (r :: rs) := by
          unfold scanKw
          simp only [scanAlts]
          have hk : kwAt "cancel".data (x :: (v' ++ ' ' :: r :: rs)) =
              some (' ' :: r :: rs) := by
            have h := kwAt_append (v := x :: v') (s := ' ' :: r :: rs) hv
            simpa [List.cons_append] using h
          simp [List.findSome?_cons, hk, spDotPlus_space hsp hterm]
        have hsearch : deleteTargetSearch
            (x :: (v' ++ ' ' :: r :: rs)) = some (r :: rs) := by
          simp [deleteTargetSearch, t0, t1, tpos]
        have htg : ¬((⟨trimL (r :: rs)⟩ : String) = "") := by
          intro h
          exact trimL_ne_nil hsp (congrArg String.data h)
        show detectIntentL (x :: (v' ++ ' ' :: r :: rs)) = _
        simp only [detectIntentL]
        rw [hlt2]
        simp [hcomp, hdelT, hfi, hla, hsearch, htg]
    · cases v with
      | nil => exact absurd hv (by decide)
      | cons x v' =>
        have hlt2 : trimL (lowerL (x :: (v' ++ ' ' :: r :: rs))) = lt :=
          hlt.symm
        have t0 : scanKw "delete".data spDotPlus
            (x :: (v' ++ ' ' :: r :: rs)) = none := by
          have h1 : ¬ "delete".data <:+: lowerL (x :: v') := by
            rw [hv]; decide
          have hj : junctionFree (lowerL (x :: v')) "delete".data = true := by
            rw [hv]; decide
          exact @scanKw_eq_none_append _ "delete".data (x :: v')
            (' ' :: r :: rs) spDotPlus h1 hx1 hj
        have t1 : scanKw "remove".data spDotPlus
            (x :: (v' ++ ' ' :: r :: rs)) = none := by
          have h1 : ¬ "remove".data <:+: lowerL (x :: v') := by
            rw [hv]; decide
          have hj : junctionFree (lowerL (x :: v')) "remove".data = true := by
            rw [hv]; decide
          exact @scanKw_eq_none_append _ "remove".data (x :: v')
            (' ' :: r :: rs) spDotPlus h1 hx2 hj
        have t2 : scanKw "cancel".data spDotPlus
            (x :: (v' ++ ' ' :: r :: rs)) = none := by
          have h1 : ¬ "cancel".data <:+: lowerL (x :: v') := by
            rw [hv]; decide
          have hj : junctionFree (lowerL (x :: v')) "cancel".data = true := by
            rw [hv]; decide
          exact @scanKw_eq_none_append _ "cancel".data (x :: v')
            (' ' :: r :: rs) spDotPlus h1 hx3 hj
        have tpos : scanKw "drop".data spDotPlus
            (x :: (v' ++ ' ' :: r :: rs)) = some (r :: rs) := by
          unfold scanKw
          simp only [scanAlts]
          have hk : kwAt "drop".data (x :: (v' ++ ' ' :: r :: rs)) =
              some (' ' :: r :: rs) := by
            have h := kwAt_append (v := x :: v') (s := ' ' :: r :: rs) hv
            simpa [List.cons_append] using h
          simp [List.findSome?_cons, hk, spDotPlus_space hsp hterm]
        have hsearch : deleteTargetSearch
            (x :: (v' ++ ' ' :: r :: rs)) = some (r :: rs) := by
          simp [deleteTargetSearch, t0, t1, t2, tpos]
        have htg : ¬((⟨trimL (r :: rs)⟩ : String) = "") := by
          intro h
          exact trimL_ne_nil hsp (congrArg String.data h)
        show detectIntentL (x :: (v' ++ ' ' :: r :: rs)) = _
        simp only [detectIntentL]
        rw [hlt2]
        simp [hcomp, hdelT, hfi, hla, hsearch, htg]

/-- C5 witness: all three parts of the amended statement at the
remainder "milk". -/
theorem c5_past_tense_witness :
    detectIntentFromText ⟨"bought ".data ++ 'm' :: "ilk".data⟩ =
      { action := .complete, targetTodo := some ⟨trimL ('m' :: "ilk".data)⟩,
        confidence := 8 } ∧
    detectIntentFromText ⟨"sent ".data ++ 'm' :: "ilk".data⟩ =
      { action := .complete, targetTodo := some ⟨trimL ('m' :: "ilk".data)⟩,
        confidence := 8 } ∧
    detectIntentFromText ⟨"finished ".data ++ 'm' :: "ilk".data⟩ =
      { action := .complete, confidence := 9 } := by
  have h := c5_past_tense 'm' "ilk".data (by decide) (by decide)
  exact ⟨h.1 _ rfl (by decide) (by decide) (by decide) (by decide),
    h.2.1 _ rfl (by decide) (by decide) (by decide) (by decide),
    h.2.2 _ rfl (by decide) (by decide) (by decide) (by decide) (by decide)
      (by decide) (by decide) (by decide) (by decide) (by decide)⟩

/-- C6 witness: the ordinal shortcut and the regex path of the amended
deletion rule at concrete inputs ("remove" exercises the scan order). -/
theorem c6_delete_rule_witness :
    detectIntentFromText "delete the first task" =
      { action := .delete, targetTodo := some "first", confidence := 9 } ∧
    detectIntentFromText "delete the last one" =
      { action := .delete, targetTodo := some "last", confidence := 9 } ∧
    detectIntentFromText ⟨"Remove".data ++ ' ' :: 'e' :: "ggs".data⟩ =
      { action := .delete, targetTodo := some ⟨trimL ('e' :: "ggs".data)⟩,
        confidence := 9 } := by
  have h := c6_delete_rule
  exact ⟨h.1 "delete the first task" _ rfl (by decide) (by decide)
      (by decide),
    h.2.1 "delete the last one" _ rfl (by decide) (by decide) (by decide)
      (by decide),
    h.2.2 "Remove".data 'e' "ggs".data _ (by decide) (by decide)
      (by decide) rfl (by decide) (by decide) (by decide) (by decide)
      (by decide) (by decide) (by decide)⟩

end VoiceAssistant
